import Mathlib

/-!
# UpdateData (src/game/Entities/UpdateData.cpp)

A shallow embedding of the update batching code of `UpdateData.cpp`: the
segment list filled by `AddUpdateBlock`, the out-of-range set, the packet
assembled by `BuildPacket` (with the zlib calls of `Compress` taken as
arbitrary result-returning steps) and the dispatch loop of `SendData`.

Bytes are natural numbers below 256; sizes are natural numbers (every size
here is the length of a container held in memory, so the `size_t`
arithmetic of the source does not wrap). Where the source narrows a value
to `uint32` or `uint8` the reduction is written out.
-/

namespace UpdateDataModel

/-- A byte of a buffer. -/
abbrev Byte := Nat

/-- Modelled from the spec: `ByteBuffer` (Util/ByteBuffer.h, absent from the
sources) is the append-only growable byte buffer with a running write
position; it is embedded as the list of the bytes written so far, so that
`size()` and `wpos()` are both its length. -/
abbrev ByteBuffer := List Byte

/-- The `size()` of a buffer. -/
def ByteBuffer.size (b : ByteBuffer) : Nat := b.length

/-- The `wpos()` of a buffer that was only appended to. -/
def ByteBuffer.wpos (b : ByteBuffer) : Nat := b.length

/-- The `append(const ByteBuffer&)` of a buffer: the bytes go to the end. -/
def ByteBuffer.append (buf block : ByteBuffer) : ByteBuffer := buf ++ block

/-- The `resize(n)` of a buffer: the underlying vector is cut to `n` bytes, or
filled up with zero bytes. -/
def ByteBuffer.resize (buf : ByteBuffer) (n : Nat) : ByteBuffer :=
  buf.take n ++ List.replicate (n - buf.length) 0

/-- The four bytes `operator<<(uint32)` and `put<uint32>` write for a value,
least significant byte first; the value is taken modulo 2^32. -/
def le32 (n : Nat) : List Byte :=
  [n % 256, n / 256 % 256, n / 65536 % 256, n / 16777216 % 256]

/-- The `put<uint32>(pos, value)` of a buffer: four bytes are overwritten in
place (the source only calls it with `pos + 4` inside the buffer). -/
def ByteBuffer.putU32 (buf : ByteBuffer) (pos value : Nat) : ByteBuffer :=
  buf.take pos ++ le32 value ++ buf.drop (pos + 4)

/-- An entity identifier (the raw 64-bit value of an `ObjectGuid`). -/
abbrev ObjectGuid := Nat

/-- The `GuidSet` (a `std::set<ObjectGuid>`) as the strictly increasing list
of its elements, which is also its iteration order. -/
abbrev GuidSet := List ObjectGuid

/-- The `std::set::insert` of one identifier. -/
def GuidSet.insert (g : ObjectGuid) : GuidSet → GuidSet
  | [] => [g]
  | x :: xs =>
    if g < x then g :: x :: xs
    else if g = x then x :: xs
    else x :: GuidSet.insert g xs

/-- The range `insert(first, last)` of a set: every element is inserted. -/
def GuidSet.insertAll (guids : List ObjectGuid) (set : GuidSet) : GuidSet :=
  guids.foldl (fun acc g => GuidSet.insert g acc) set

/-- Modelled from the spec: `WorldPacket` (Server/WorldPacket.h, absent from
the sources) is a network packet, an opcode together with the bytes of its
`ByteBuffer` base. -/
structure WorldPacket where
  m_opcode : Nat
  contents : ByteBuffer
  deriving DecidableEq, Repr

/-- Modelled from the spec: the element type of `m_data` (declared in
UpdateData.h, absent from the sources) is the segment, a buffer and its block
counter. The counter is the "unsigned integer" of the data model and is kept
unbounded here, the `(uint32)` cast of `BuildPacket` being applied where the
source applies it. -/
structure UpdatePacket where
  m_buffer : ByteBuffer
  m_blockCount : Nat
  deriving DecidableEq, Repr

/-- The members of `UpdateData`. -/
structure UpdateData where
  m_outOfRangeGUIDs : GuidSet
  m_data : List UpdatePacket
  m_currentIndex : Nat
  m_afterCreatePacket : List WorldPacket
  deriving DecidableEq, Repr

/-- The z_stream fields `Compress` reads and writes (the allocator hooks are
left out). `next_in` stands for the input bytes it points to and `next_out`
for the contents of the destination memory it points to. -/
structure ZStream where
  next_in : List Byte
  avail_in : Nat
  next_out : List Byte
  avail_out : Nat
  total_out : Nat
  deriving DecidableEq, Repr

/-- The zlib entry points as arbitrary steps: each returns a result code and
the stream it leaves behind. -/
structure Zlib where
  deflateInit : ZStream → Nat → Int × ZStream
  deflate : ZStream → Int → Int × ZStream
  deflateEnd : ZStream → Int × ZStream
  compressBound : Nat → Nat

/-- The constants and collaborators of the translation unit that are declared
outside it: the transport ceiling, the update type marker, the opcodes, the
opcode of a default-constructed `WorldPacket`, the configured compression
level, the packed encoding of an identifier and zlib. -/
structure Env where
  MAX_NETCLIENT_PACKET_SIZE : Nat
  UPDATETYPE_OUT_OF_RANGE_OBJECTS : Nat
  SMSG_UPDATE_OBJECT : Nat
  SMSG_COMPRESSED_UPDATE_OBJECT : Nat
  MSG_NULL_ACTION : Nat
  CONFIG_UINT32_COMPRESSION : Nat
  WriteAsPacked : ObjectGuid → List Byte
  zlib : Zlib

/-- The result code `Z_OK` of zlib.h. -/
def Z_OK : Int := 0
/-- The result code `Z_STREAM_END` of zlib.h. -/
def Z_STREAM_END : Int := 1
/-- The flush mode `Z_NO_FLUSH` of zlib.h. -/
def Z_NO_FLUSH : Int := 0
/-- The flush mode `Z_FINISH` of zlib.h. -/
def Z_FINISH : Int := 4

/-- The zlib calls `Compress` can make. -/
inductive ZCall where
  | deflateInit
  | deflateNoFlush
  | deflateFinish
  | deflateEnd
  deriving DecidableEq, Repr

/-- `UpdateData::UpdateData()`: one empty segment with block count 0, current
index 0. -/
def UpdateData.new : UpdateData :=
  { m_outOfRangeGUIDs := [],
    m_data := [{ m_buffer := [], m_blockCount := 0 }],
    m_currentIndex := 0,
    m_afterCreatePacket := [] }

/-- `UpdateData::AddOutOfRangeGUID(GuidSet&)`. -/
def AddOutOfRangeGUIDs (s : UpdateData) (guids : List ObjectGuid) : UpdateData :=
  { s with m_outOfRangeGUIDs := GuidSet.insertAll guids s.m_outOfRangeGUIDs }

/-- `UpdateData::AddOutOfRangeGUID(ObjectGuid const&)`. -/
def AddOutOfRangeGUID (s : UpdateData) (guid : ObjectGuid) : UpdateData :=
  { s with m_outOfRangeGUIDs := GuidSet.insert guid s.m_outOfRangeGUIDs }

/-- `UpdateData::AddUpdateBlock`. The result is `none` when
`m_data[m_currentIndex]` is not an element of the vector. -/
def AddUpdateBlock (env : Env) (s : UpdateData) (block : ByteBuffer) : Option UpdateData :=
  match s.m_data[s.m_currentIndex]? with
  | none => none
  | some cur =>
    let existing := 128 + 9 * s.m_outOfRangeGUIDs.length + ByteBuffer.size cur.m_buffer
    if existing + ByteBuffer.size block < env.MAX_NETCLIENT_PACKET_SIZE then
      some { s with
        m_data := s.m_data.set s.m_currentIndex
          { m_buffer := ByteBuffer.append cur.m_buffer block,
            m_blockCount := cur.m_blockCount + 1 } }
    else
      let idx := s.m_currentIndex + 1
      let data := s.m_data ++ [{ m_buffer := [], m_blockCount := 0 }]
      match data[idx]? with
      | none => none
      | some fresh =>
        some { s with
          m_currentIndex := idx,
          m_data := data.set idx
            { m_buffer := ByteBuffer.append fresh.m_buffer block, m_blockCount := 1 } }

/-- `UpdateData::AddAfterCreatePacket`. -/
def AddAfterCreatePacket (s : UpdateData) (data : WorldPacket) : UpdateData :=
  { s with m_afterCreatePacket := s.m_afterCreatePacket ++ [data] }

/-- `UpdateData::Clear`. -/
def Clear (s : UpdateData) : UpdateData :=
  { s with m_data := [], m_outOfRangeGUIDs := [] }

/-- What `Compress` leaves behind: the destination memory, the value stored
through `dst_size`, and the zlib calls it made, in order. -/
structure CompressResult where
  dst : List Byte
  dst_size : Nat
  calls : List ZCall
  deriving DecidableEq, Repr

/-- `UpdateData::Compress`. `dst` is the destination memory, `dst_size` the
value `*dst_size` holds on entry; `src_size` is narrowed to `uInt`, and
`total_out` to `uint32` when it is stored. -/
def Compress (env : Env) (dst : List Byte) (dst_size : Nat) (src : List Byte) (src_size : Nat) :
    CompressResult :=
  let c0 : ZStream := { next_in := [], avail_in := 0, next_out := [], avail_out := 0, total_out := 0 }
  let r1 := env.zlib.deflateInit c0 env.CONFIG_UINT32_COMPRESSION
  if r1.1 ≠ Z_OK then
    { dst := dst, dst_size := 0, calls := [ZCall.deflateInit] }
  else
    let c1 : ZStream := { r1.2 with
      next_out := dst, avail_out := dst_size, next_in := src, avail_in := src_size % 2 ^ 32 }
    let r2 := env.zlib.deflate c1 Z_NO_FLUSH
    if r2.1 ≠ Z_OK then
      { dst := r2.2.next_out, dst_size := 0, calls := [ZCall.deflateInit, ZCall.deflateNoFlush] }
    else if r2.2.avail_in ≠ 0 then
      { dst := r2.2.next_out, dst_size := 0, calls := [ZCall.deflateInit, ZCall.deflateNoFlush] }
    else
      let r3 := env.zlib.deflate r2.2 Z_FINISH
      if r3.1 ≠ Z_STREAM_END then
        { dst := r3.2.next_out, dst_size := 0,
          calls := [ZCall.deflateInit, ZCall.deflateNoFlush, ZCall.deflateFinish] }
      else
        let r4 := env.zlib.deflateEnd r3.2
        if r4.1 ≠ Z_OK then
          { dst := r4.2.next_out, dst_size := 0,
            calls := [ZCall.deflateInit, ZCall.deflateNoFlush, ZCall.deflateFinish,
              ZCall.deflateEnd] }
        else
          { dst := r4.2.next_out, dst_size := r4.2.total_out % 2 ^ 32,
            calls := [ZCall.deflateInit, ZCall.deflateNoFlush, ZCall.deflateFinish,
              ZCall.deflateEnd] }

/-- The buffer `buf` of `BuildPacket` once the block count, the out-of-range
block and the segment buffer have been written (lines 129 to 142). -/
def BuildPacket.buf (env : Env) (s : UpdateData) (seg : UpdatePacket) : ByteBuffer :=
  let buf : ByteBuffer := []
  let buf := buf ++ le32
    (if !s.m_outOfRangeGUIDs.isEmpty then seg.m_blockCount + 1 else seg.m_blockCount)
  let buf :=
    if !s.m_outOfRangeGUIDs.isEmpty then
      let buf := buf ++ [env.UPDATETYPE_OUT_OF_RANGE_OBJECTS % 256]
      let buf := buf ++ le32 s.m_outOfRangeGUIDs.length
      s.m_outOfRangeGUIDs.foldl (fun acc guid => acc ++ env.WriteAsPacked guid) buf
    else buf
  ByteBuffer.append buf seg.m_buffer

/-- The size `BuildPacket` reserves for `buf` (the constructor argument on
line 129). -/
def BuildPacket.reserve (s : UpdateData) (seg : UpdatePacket) : Nat :=
  4 + (if s.m_outOfRangeGUIDs.isEmpty then 0 else 1 + 4 + 9 * s.m_outOfRangeGUIDs.length)
    + ByteBuffer.wpos seg.m_buffer

/-- The body of `BuildPacket` for the segment `seg = m_data[index]`: the
packet returned and the zlib calls made on the way (lines 126 to 165; the
assertion of line 127 holds of the packet just constructed). -/
def BuildPacket.build (env : Env) (s : UpdateData) (seg : UpdatePacket) :
    WorldPacket × List ZCall :=
  let packet : WorldPacket := { m_opcode := env.MSG_NULL_ACTION, contents := [] }
  let buf := BuildPacket.buf env s seg
  let pSize := ByteBuffer.wpos buf
  if pSize > 100 then
    let destsize := env.zlib.compressBound pSize % 2 ^ 32
    let packet := { packet with contents := ByteBuffer.resize packet.contents (destsize + 4) }
    let packet := { packet with contents := ByteBuffer.putU32 packet.contents 0 pSize }
    let r := Compress env (packet.contents.drop 4) destsize buf pSize
    let packet := { packet with contents := packet.contents.take 4 ++ r.dst }
    if r.dst_size = 0 then
      (packet, r.calls)
    else
      let packet := { packet with contents := ByteBuffer.resize packet.contents (r.dst_size + 4) }
      let packet := { packet with m_opcode := env.SMSG_COMPRESSED_UPDATE_OBJECT }
      (packet, r.calls)
  else
    let packet := { packet with contents := ByteBuffer.append packet.contents buf }
    let packet := { packet with m_opcode := env.SMSG_UPDATE_OBJECT }
    (packet, [])

/-- `UpdateData::BuildPacket`, with the zlib calls made on the way. The result
is `none` when `m_data[index]` is not an element of the vector. -/
def BuildPacket (env : Env) (s : UpdateData) (index : Nat) : Option (WorldPacket × List ZCall) :=
  match s.m_data[index]? with
  | none => none
  | some seg => some (BuildPacket.build env s seg)

/-- Modelled from the spec: `HasData()` is declared in UpdateData.h, absent
from the sources. The batch holds data unless there are "no segments with
content and no out-of-range entries". -/
def HasData (s : UpdateData) : Bool :=
  s.m_data.any (fun seg => ByteBuffer.size seg.m_buffer != 0) || !s.m_outOfRangeGUIDs.isEmpty

/-- Modelled from the spec: `GetPacketCount()` is declared in UpdateData.h,
absent from the sources; it is the number of segments, one packet being
built per segment index. -/
def GetPacketCount (s : UpdateData) : Nat := s.m_data.length

/-- The first loop of `SendData` over the given segment indices: the packets
handed to `SendPacket`, in order. -/
def SendData.loop (env : Env) (s : UpdateData) : List Nat → Option (List WorldPacket)
  | [] => some []
  | i :: rest =>
    match BuildPacket env s i with
    | none => none
    | some r =>
      match SendData.loop env s rest with
      | none => none
      | some sent => some (r.1 :: sent)

/-- `UpdateData::SendData`: the packets handed to `session.SendPacket`, in
order. -/
def SendData (env : Env) (s : UpdateData) : Option (List WorldPacket) :=
  if !HasData s then some []
  else
    match SendData.loop env s (List.range (GetPacketCount s)) with
    | none => none
    | some sent => some (sent ++ s.m_afterCreatePacket)

/-- A call of one of the mutating members of `UpdateData`. -/
inductive Op where
  | addGuid (guid : ObjectGuid)
  | addGuids (guids : List ObjectGuid)
  | addBlock (block : ByteBuffer)
  | addPacket (data : WorldPacket)
  | clear
  deriving DecidableEq, Repr

/-- The effect of one call. -/
def step (env : Env) (s : UpdateData) : Op → Option UpdateData
  | Op.addGuid g => some (AddOutOfRangeGUID s g)
  | Op.addGuids gs => some (AddOutOfRangeGUIDs s gs)
  | Op.addBlock b => AddUpdateBlock env s b
  | Op.addPacket p => some (AddAfterCreatePacket s p)
  | Op.clear => some (Clear s)

/-- The effect of a sequence of calls, first call first. -/
def run (env : Env) (s : UpdateData) : List Op → Option UpdateData
  | [] => some s
  | op :: ops =>
    match step env s op with
    | none => none
    | some s1 => run env s1 ops

/-- The states a freshly constructed `UpdateData` can be brought into. -/
def Reachable (env : Env) (s : UpdateData) : Prop :=
  ∃ ops, run env UpdateData.new ops = some s

/-- The call adds out-of-range identifiers. -/
def Op.isGuid : Op → Bool
  | Op.addGuid _ => true
  | Op.addGuids _ => true
  | _ => false

/-- The call appends an update block. -/
def Op.isBlock : Op → Bool
  | Op.addBlock _ => true
  | _ => false

/-- The blocks a sequence of calls appends, in call order. -/
def blocksOf : List Op → List ByteBuffer
  | [] => []
  | Op.addBlock b :: ops => b :: blocksOf ops
  | _ :: ops => blocksOf ops

/-- The packed encoding of the client protocol, used for the sample
environment: a mask byte with one bit per non-zero byte of the 64-bit value,
followed by the non-zero bytes, least significant first. -/
def packGuid (g : ObjectGuid) : List Byte :=
  let bytes := (List.range 8).map (fun i => g / 256 ^ i % 256)
  let mask := ((List.range 8).map (fun i => if g / 256 ^ i % 256 = 0 then 0 else 2 ^ i)).sum
  mask :: bytes.filter (fun b => b != 0)

/-- A zlib stand-in that stores the input unchanged. -/
def storeZlib : Zlib :=
  { deflateInit := fun c _ => (Z_OK, c),
    deflate := fun c flush =>
      if flush = Z_FINISH then (Z_STREAM_END, c)
      else (Z_OK, { c with
        next_out := ByteBuffer.resize (c.next_in.take c.avail_in) c.next_out.length,
        avail_in := 0,
        avail_out := c.avail_out - c.avail_in,
        total_out := c.total_out + c.avail_in }),
    deflateEnd := fun c => (Z_OK, c),
    compressBound := fun n => n + 13 }

/-- A zlib stand-in whose `deflateInit` fails (`Z_MEM_ERROR`). -/
def failingZlib : Zlib :=
  { storeZlib with deflateInit := fun c _ => (-4, c) }

/-- A sample environment with the constants of the 3.3.5a client protocol. -/
def sampleEnv : Env :=
  { MAX_NETCLIENT_PACKET_SIZE := 32766,
    UPDATETYPE_OUT_OF_RANGE_OBJECTS := 4,
    SMSG_UPDATE_OBJECT := 169,
    SMSG_COMPRESSED_UPDATE_OBJECT := 502,
    MSG_NULL_ACTION := 0,
    CONFIG_UINT32_COMPRESSION := 1,
    WriteAsPacked := packGuid,
    zlib := storeZlib }

/-- The sample environment with a zlib that cannot initialise. -/
def failingEnv : Env := { sampleEnv with zlib := failingZlib }

/-- The current segment is the last one. -/
def CurrentIsLast (s : UpdateData) : Prop :=
  s.m_currentIndex + 1 = s.m_data.length

/-- The segment a run of blocks makes: the blocks one after another, counted. -/
def segOf (r : List ByteBuffer) : UpdatePacket :=
  { m_buffer := r.flatten, m_blockCount := r.length }

/-- The segments are the runs `rinit ++ [rlast]` of the blocks `bs`, the last
run being the current segment. -/
def PartitionedBy (s : UpdateData) (bs : List ByteBuffer) : Prop :=
  ∃ (rinit : List (List ByteBuffer)) (rlast : List ByteBuffer),
    (rinit ++ [rlast]).flatten = bs ∧
    s.m_data = rinit.map segOf ++ [segOf rlast] ∧
    s.m_currentIndex = rinit.length

/-- The out-of-range block of the wire format: the type marker, the number of
identifiers as a little-endian uint32 and the packed identifiers; nothing
when the set is empty. -/
def outOfRangeBlock (env : Env) (set : GuidSet) : List Byte :=
  if set.isEmpty then []
  else [env.UPDATETYPE_OUT_OF_RANGE_OBJECTS % 256] ++ le32 set.length
    ++ set.flatMap env.WriteAsPacked

/-- The value of the block count header: the out-of-range block counts as one
block. -/
def blockCountHeader (s : UpdateData) (seg : UpdatePacket) : Nat :=
  if s.m_outOfRangeGUIDs.isEmpty then seg.m_blockCount else seg.m_blockCount + 1

/-- A block of `n` zero bytes. -/
def blockOfSize (n : Nat) : ByteBuffer := List.replicate n 0

/-- Fourteen identifiers whose eight bytes are all non-zero. -/
def fullGuids : List ObjectGuid := (List.range 14).map (fun k => 72340172838076673 + k)

/-- The state after one block of 32763 bytes was appended to a fresh batch. -/
def loneBlockState : UpdateData :=
  { m_outOfRangeGUIDs := [],
    m_data := [{ m_buffer := [], m_blockCount := 0 },
               { m_buffer := blockOfSize 32763, m_blockCount := 1 }],
    m_currentIndex := 1,
    m_afterCreatePacket := [] }

/-- The state after blocks of 16000 and 16637 bytes were appended to a fresh
batch and the fourteen identifiers were added afterwards. -/
def lateGuidState : UpdateData :=
  { m_outOfRangeGUIDs := fullGuids,
    m_data := [{ m_buffer := blockOfSize 16000 ++ blockOfSize 16637, m_blockCount := 2 }],
    m_currentIndex := 0,
    m_afterCreatePacket := [] }

/-- The uint32 a reader decodes from four little-endian bytes. -/
def readU32 (bytes : List Byte) : Nat :=
  bytes.getD 0 0 + 256 * bytes.getD 1 0 + 65536 * bytes.getD 2 0 + 16777216 * bytes.getD 3 0

/-- The state after identifier 7 was added to a fresh batch and then a block of
32626 bytes and the block 1, 2, 3 were appended: two segments. -/
def splitState : UpdateData :=
  { m_outOfRangeGUIDs := [7],
    m_data := [{ m_buffer := blockOfSize 32626, m_blockCount := 1 },
               { m_buffer := [1, 2, 3], m_blockCount := 1 }],
    m_currentIndex := 1,
    m_afterCreatePacket := [] }

/-- The pre-compression payload `BuildPacket(index)` assembles: the buffer
`buf` for segment `index`. -/
def BuildPacket.payload (env : Env) (s : UpdateData) (index : Nat) : Option ByteBuffer :=
  match s.m_data[index]? with
  | none => none
  | some seg => some (BuildPacket.buf env s seg)

/-- The block count headers of the payloads of all segments, in segment order,
as a reader decodes them. -/
def headers (env : Env) (s : UpdateData) : List Nat :=
  s.m_data.map (fun seg => readU32 ((BuildPacket.buf env s seg).take 4))

/-- The call of `Compress` that `BuildPacket` makes for a payload `P`: the
destination is the zero-filled area of `compressBound(pSize)` bytes behind
the 4-byte prefix of the packet. -/
def BuildPacket.compress (env : Env) (P : ByteBuffer) : CompressResult :=
  Compress env (List.replicate (env.zlib.compressBound P.length % 2 ^ 32) 0)
    (env.zlib.compressBound P.length % 2 ^ 32) P P.length

/-- The state after one block of 101 bytes was appended to a fresh batch. -/
def largeBlockState : UpdateData :=
  { m_outOfRangeGUIDs := [],
    m_data := [{ m_buffer := blockOfSize 101, m_blockCount := 1 }],
    m_currentIndex := 0,
    m_afterCreatePacket := [] }

/-- The stream `Compress` builds before `deflateInit` (nothing is set yet). -/
def Compress.stream0 : ZStream :=
  { next_in := [], avail_in := 0, next_out := [], avail_out := 0, total_out := 0 }

/-- The result of the `deflateInit` call of `Compress`. -/
def Compress.initResult (env : Env) : Int × ZStream :=
  env.zlib.deflateInit Compress.stream0 env.CONFIG_UINT32_COMPRESSION

/-- The result of the `deflate(Z_NO_FLUSH)` call of `Compress`, on the stream
with the output and input fields set (lines 85 to 90). -/
def Compress.noFlushResult (env : Env) (dst : List Byte) (dst_size : Nat) (src : List Byte)
    (src_size : Nat) : Int × ZStream :=
  env.zlib.deflate
    { (Compress.initResult env).2 with
      next_out := dst, avail_out := dst_size, next_in := src, avail_in := src_size % 2 ^ 32 }
    Z_NO_FLUSH

/-- The result of the `deflate(Z_FINISH)` call of `Compress`. -/
def Compress.finishResult (env : Env) (dst : List Byte) (dst_size : Nat) (src : List Byte)
    (src_size : Nat) : Int × ZStream :=
  env.zlib.deflate (Compress.noFlushResult env dst dst_size src src_size).2 Z_FINISH

/-- The result of the `deflateEnd` call of `Compress`. -/
def Compress.endResult (env : Env) (dst : List Byte) (dst_size : Nat) (src : List Byte)
    (src_size : Nat) : Int × ZStream :=
  env.zlib.deflateEnd (Compress.finishResult env dst dst_size src src_size).2

/-- Zlib stand-ins that fail after a successful `deflateInit`: with `stage`
1 the `deflate(Z_NO_FLUSH)` call returns `Z_STREAM_ERROR`; with 2 it
returns `Z_OK` but leaves one input byte unconsumed; with any other value the
`deflate(Z_FINISH)` call returns `Z_OK` instead of `Z_STREAM_END`. -/
def brokenZlib (stage : Nat) : Zlib :=
  { deflateInit := fun c _ => (Z_OK, c),
    deflate := fun c flush =>
      if flush = Z_FINISH then
        (if stage = 1 ∨ stage = 2 then Z_STREAM_END else Z_OK, c)
      else if stage = 1 then (-2, c)
      else if stage = 2 then (Z_OK, { c with avail_in := 1 })
      else (Z_OK, { c with avail_in := 0 }),
    deflateEnd := fun c => (Z_OK, c),
    compressBound := fun n => n + 13 }

/-- The sample environment with one of the failing zlib stand-ins. -/
def brokenEnv (stage : Nat) : Env := { sampleEnv with zlib := brokenZlib stage }

/-- The current segment is the last one and every segment after the first
holds at least one block. -/
def LaterSegmentsFilled (s : UpdateData) : Prop :=
  CurrentIsLast s ∧ ∀ seg ∈ s.m_data.tail, 1 ≤ seg.m_blockCount

/-- The bookkeeping of one call for `lastFitCounts`: a block appended by the
fit branch of `AddUpdateBlock` (the current index stays) records the present
size of the out-of-range set for the current segment; a block that opens a
new segment records `none` for it; the other calls record nothing. -/
def trackStep (env : Env) (s : UpdateData) (t : List (Option Nat)) : Op → List (Option Nat)
  | Op.addBlock b =>
    match AddUpdateBlock env s b with
    | none => t
    | some s1 =>
      if s1.m_currentIndex = s.m_currentIndex then
        t.set s.m_currentIndex (some s.m_outOfRangeGUIDs.length)
      else t ++ [none]
  | _ => t

/-- The bookkeeping of `trackStep` along a sequence of calls. -/
def trackRun (env : Env) : UpdateData → List (Option Nat) → List Op → List (Option Nat)
  | _, t, [] => t
  | s, t, op :: ops =>
    match step env s op with
    | none => t
    | some s1 => trackRun env s1 (trackStep env s t op) ops

/-- For each segment after the calls `ops` on a fresh batch: `some k` when the
last block appended to the segment went through the fit branch of
`AddUpdateBlock`, `k` being the size of the out-of-range set at that call;
`none` when no block was appended to it by the fit branch (the initial
segment while empty, a segment holding only the block that opened it). -/
def lastFitCounts (env : Env) (ops : List Op) : List (Option Nat) :=
  trackRun env UpdateData.new [none] ops

/-- What is known of a segment with its record, the set having `n` ids: at
most one block without a fit append, and otherwise the size test passed with
the buffer as it is and `k ≤ n` ids. -/
def FitGood (env : Env) (n : Nat) (p : UpdatePacket × Option Nat) : Prop :=
  match p.2 with
  | none => p.1.m_blockCount ≤ 1
  | some k => k ≤ n ∧ 128 + 9 * k + p.1.m_buffer.length < env.MAX_NETCLIENT_PACKET_SIZE

/-- The records `t` go with the segments of `s`. -/
def FitTracked (env : Env) (s : UpdateData) (t : List (Option Nat)) : Prop :=
  CurrentIsLast s ∧ t.length = s.m_data.length ∧
    (∀ p ∈ s.m_data.zip t, FitGood env s.m_outOfRangeGUIDs.length p) ∧
    (∀ seg, (s.m_data.zip t).head? = some (seg, none) → seg.m_blockCount = 0)

/-! ## Shared lemmas -/

theorem run_append (env : Env) (s : UpdateData) (xs ys : List Op) :
    run env s (xs ++ ys) =
      match run env s xs with
      | none => none
      | some s1 => run env s1 ys := by
  induction xs generalizing s with
  | nil => simp [run]
  | cons op rest ih =>
    simp only [List.cons_append, run]
    cases hstep : step env s op with
    | none => simp
    | some s1 => simp [ih s1]

theorem run_preserves (env : Env) (P : UpdateData → Prop)
    (hstep : ∀ s op s1, P s → step env s op = some s1 → P s1) :
    ∀ (ops : List Op) (s s1 : UpdateData), P s → run env s ops = some s1 → P s1 := by
  intro ops
  induction ops with
  | nil =>
    intro s s1 hP h
    simp [run] at h
    exact h ▸ hP
  | cons op rest ih =>
    intro s s1 hP h
    simp only [run] at h
    cases hs : step env s op with
    | none => simp [hs] at h
    | some s2 =>
      simp only [hs] at h
      exact ih s2 s1 (hstep s op s2 hP hs) h

theorem getElem?_append_pair {α : Type} (init : List α) (x y : α) :
    (init ++ [x, y])[init.length + 1]? = some y := by
  have h := List.getElem?_concat_length (init ++ [x]) y
  simpa using h

theorem AddUpdateBlock_of_last (env : Env) (s : UpdateData) (b : ByteBuffer)
    (init : List UpdatePacket) (cur : UpdatePacket)
    (hdata : s.m_data = init ++ [cur]) (hidx : s.m_currentIndex = init.length) :
    AddUpdateBlock env s b =
      if 128 + 9 * s.m_outOfRangeGUIDs.length + cur.m_buffer.length + b.length
          < env.MAX_NETCLIENT_PACKET_SIZE then
        some { s with m_data := init ++ [{ m_buffer := cur.m_buffer ++ b,
                                            m_blockCount := cur.m_blockCount + 1 }] }
      else
        some { s with m_data := init ++ [cur, { m_buffer := b, m_blockCount := 1 }],
                      m_currentIndex := init.length + 1 } := by
  unfold AddUpdateBlock
  rw [hdata, hidx]
  simp only [List.getElem?_concat_length, ByteBuffer.size, ByteBuffer.append, List.append_assoc,
    List.singleton_append]
  split
  · simp
  · have h1 : (init ++ [cur, ({ m_buffer := [], m_blockCount := 0 } : UpdatePacket)])[init.length + 1]?
        = some { m_buffer := [], m_blockCount := 0 } :=
      getElem?_append_pair init cur _
    simp only [h1]
    have h2 : (init ++ [cur, ({ m_buffer := [], m_blockCount := 0 } : UpdatePacket)]).set (init.length + 1)
        { m_buffer := [] ++ b, m_blockCount := 1 } = init ++ [cur, { m_buffer := b, m_blockCount := 1 }] := by
      have := List.set_append_right (s := init ++ [cur])
        (t := [({ m_buffer := [], m_blockCount := 0 } : UpdatePacket)]) (init.length + 1)
        ({ m_buffer := [] ++ b, m_blockCount := 1 } : UpdatePacket) (by simp)
      simp
    simp only [h2]

theorem exists_last_of_currentIsLast (s : UpdateData) (h : CurrentIsLast s) :
    ∃ init cur, s.m_data = init ++ [cur] ∧ s.m_currentIndex = init.length := by
  unfold CurrentIsLast at h
  rcases List.eq_nil_or_concat s.m_data with hnil | ⟨init, cur, hc⟩
  · rw [hnil] at h; simp at h
  · refine ⟨init, cur, by simpa using hc, ?_⟩
    rw [hc] at h
    simp at h
    exact h

theorem step_currentIsLast (env : Env) (s : UpdateData) (op : Op) (s1 : UpdateData)
    (hP : s.m_data = [] ∨ CurrentIsLast s) (h : step env s op = some s1) :
    s1.m_data = [] ∨ CurrentIsLast s1 := by
  cases op with
  | addGuid g =>
    simp only [step, AddOutOfRangeGUID, Option.some.injEq] at h
    subst h; exact hP
  | addGuids gs =>
    simp only [step, AddOutOfRangeGUIDs, Option.some.injEq] at h
    subst h; exact hP
  | addPacket p =>
    simp only [step, AddAfterCreatePacket, Option.some.injEq] at h
    subst h; exact hP
  | clear =>
    simp only [step, Clear, Option.some.injEq] at h
    subst h; exact Or.inl rfl
  | addBlock b =>
    simp only [step] at h
    rcases hP with hnil | hlast
    · simp [AddUpdateBlock, hnil] at h
    · obtain ⟨init, cur, hdata, hidx⟩ := exists_last_of_currentIsLast s hlast
      rw [AddUpdateBlock_of_last env s b init cur hdata hidx] at h
      right
      split at h
      · simp only [Option.some.injEq] at h
        subst h
        simp [CurrentIsLast, hidx]
      · simp only [Option.some.injEq] at h
        subst h
        simp [CurrentIsLast]

theorem reachable_currentIsLast (env : Env) (s : UpdateData) (hr : Reachable env s) :
    s.m_data = [] ∨ CurrentIsLast s := by
  obtain ⟨ops, h⟩ := hr
  exact run_preserves env (fun s => s.m_data = [] ∨ CurrentIsLast s)
    (step_currentIsLast env) ops UpdateData.new s (Or.inr rfl) h

/-! ## AddUpdateBlock -/

/-- C1: in every reachable state with a valid current segment,
`AddUpdateBlock(b)` succeeds and follows the size rule: with
estimate = 128 + 9 * (out-of-range ids) + (size of the current buffer), if
estimate + size(b) is strictly below the ceiling the segment count and the
current index are unchanged and the current segment becomes its old buffer
followed by b with its block count one higher; otherwise the segment list is
the old one followed by one new segment holding exactly b with block count 1,
and the current index advances by one to that segment. -/
theorem AddUpdateBlock_rule (env : Env) (s : UpdateData) (b : ByteBuffer)
    (hr : Reachable env s) (hv : s.m_currentIndex < s.m_data.length) :
    ∃ cur s1, s.m_data[s.m_currentIndex]? = some cur ∧ AddUpdateBlock env s b = some s1 ∧
      s1.m_outOfRangeGUIDs = s.m_outOfRangeGUIDs ∧
      (128 + 9 * s.m_outOfRangeGUIDs.length + cur.m_buffer.length + b.length
          < env.MAX_NETCLIENT_PACKET_SIZE →
        s1.m_data.length = s.m_data.length ∧ s1.m_currentIndex = s.m_currentIndex ∧
        s1.m_data[s.m_currentIndex]? =
          some { m_buffer := cur.m_buffer ++ b, m_blockCount := cur.m_blockCount + 1 }) ∧
      (¬ 128 + 9 * s.m_outOfRangeGUIDs.length + cur.m_buffer.length + b.length
          < env.MAX_NETCLIENT_PACKET_SIZE →
        s1.m_data = s.m_data ++ [{ m_buffer := b, m_blockCount := 1 }] ∧
        s1.m_currentIndex = s.m_currentIndex + 1 ∧
        s1.m_currentIndex + 1 = s1.m_data.length ∧
        s1.m_data[s1.m_currentIndex]? = some { m_buffer := b, m_blockCount := 1 }) := by
  have hlast : CurrentIsLast s := by
    rcases reachable_currentIsLast env s hr with hnil | h
    · rw [hnil] at hv; simp at hv
    · exact h
  obtain ⟨init, cur, hdata, hidx⟩ := exists_last_of_currentIsLast s hlast
  have hadd := AddUpdateBlock_of_last env s b init cur hdata hidx
  refine ⟨cur, ?_⟩
  by_cases hfit : 128 + 9 * s.m_outOfRangeGUIDs.length + cur.m_buffer.length + b.length
      < env.MAX_NETCLIENT_PACKET_SIZE
  · rw [if_pos hfit] at hadd
    refine ⟨_, ?_, hadd, rfl, ?_, fun h => absurd hfit h⟩
    · rw [hdata, hidx]; simp
    · intro _
      simp [hdata, hidx]
  · rw [if_neg hfit] at hadd
    refine ⟨_, ?_, hadd, rfl, fun h => absurd h hfit, ?_⟩
    · rw [hdata, hidx]; simp
    · intro _
      refine ⟨by simp [hdata], by simp [hidx], by simp, ?_⟩
      exact getElem?_append_pair init cur _

/-- C1 (witness): the rule at a fresh batch and the block 1, 2, 3. -/
theorem AddUpdateBlock_rule_witness :
    ∃ cur s1, UpdateData.new.m_data[UpdateData.new.m_currentIndex]? = some cur ∧
      AddUpdateBlock sampleEnv UpdateData.new [1, 2, 3] = some s1 ∧
      s1.m_outOfRangeGUIDs = UpdateData.new.m_outOfRangeGUIDs ∧
      (128 + 9 * UpdateData.new.m_outOfRangeGUIDs.length + cur.m_buffer.length
            + [1, 2, 3].length < sampleEnv.MAX_NETCLIENT_PACKET_SIZE →
        s1.m_data.length = UpdateData.new.m_data.length ∧
        s1.m_currentIndex = UpdateData.new.m_currentIndex ∧
        s1.m_data[UpdateData.new.m_currentIndex]? =
          some { m_buffer := cur.m_buffer ++ [1, 2, 3], m_blockCount := cur.m_blockCount + 1 }) ∧
      (¬ 128 + 9 * UpdateData.new.m_outOfRangeGUIDs.length + cur.m_buffer.length
            + [1, 2, 3].length < sampleEnv.MAX_NETCLIENT_PACKET_SIZE →
        s1.m_data = UpdateData.new.m_data ++ [{ m_buffer := [1, 2, 3], m_blockCount := 1 }] ∧
        s1.m_currentIndex = UpdateData.new.m_currentIndex + 1 ∧
        s1.m_currentIndex + 1 = s1.m_data.length ∧
        s1.m_data[s1.m_currentIndex]? = some { m_buffer := [1, 2, 3], m_blockCount := 1 }) :=
  AddUpdateBlock_rule sampleEnv UpdateData.new [1, 2, 3] ⟨[], rfl⟩ (by decide)

/-! ## The segments partition the appended blocks -/

theorem step_partitioned (env : Env) (s : UpdateData) (bs : List ByteBuffer) (op : Op)
    (hP : PartitionedBy s bs) (hop : op.isGuid = true ∨ op.isBlock = true) :
    ∃ s1, step env s op = some s1 ∧ PartitionedBy s1 (bs ++ blocksOf [op]) := by
  obtain ⟨rinit, rlast, hflat, hdata, hidx⟩ := hP
  cases op with
  | addGuid g =>
    exact ⟨_, rfl, rinit, rlast, by simpa [blocksOf] using hflat, hdata, hidx⟩
  | addGuids gs =>
    exact ⟨_, rfl, rinit, rlast, by simpa [blocksOf] using hflat, hdata, hidx⟩
  | addPacket p => simp [Op.isGuid, Op.isBlock] at hop
  | clear => simp [Op.isGuid, Op.isBlock] at hop
  | addBlock b =>
    have hidx1 : s.m_currentIndex = (rinit.map segOf).length := by simpa using hidx
    have hadd := AddUpdateBlock_of_last env s b (rinit.map segOf) (segOf rlast) hdata hidx1
    simp only [step]
    rw [hadd]
    split
    · refine ⟨_, rfl, rinit, rlast ++ [b], ?_, ?_, hidx⟩
      · simp [blocksOf, ← hflat]
      · simp [segOf]
    · refine ⟨_, rfl, rinit ++ [rlast], [b], ?_, ?_, ?_⟩
      · simp [blocksOf, ← hflat]
      · simp [segOf]
      · simp

theorem blocksOf_cons (op : Op) (ops : List Op) :
    blocksOf (op :: ops) = blocksOf [op] ++ blocksOf ops := by
  cases op <;> simp [blocksOf]

theorem run_partitioned (env : Env) :
    ∀ (ops : List Op) (s : UpdateData) (bs : List ByteBuffer), PartitionedBy s bs →
      (∀ op ∈ ops, op.isGuid = true ∨ op.isBlock = true) →
      ∃ s1, run env s ops = some s1 ∧ PartitionedBy s1 (bs ++ blocksOf ops) := by
  intro ops
  induction ops with
  | nil =>
    intro s bs hP _
    exact ⟨s, rfl, by simpa [blocksOf] using hP⟩
  | cons op rest ih =>
    intro s bs hP hops
    obtain ⟨s1, hs1, hP1⟩ := step_partitioned env s bs op hP (hops op (by simp))
    obtain ⟨s2, hs2, hP2⟩ := ih s1 _ hP1 (fun o ho => hops o (by simp [ho]))
    refine ⟨s2, ?_, ?_⟩
    · simp [run, hs1, hs2]
    · rw [blocksOf_cons, ← List.append_assoc]
      exact hP2

theorem new_partitioned : PartitionedBy UpdateData.new [] :=
  ⟨[], [], rfl, rfl, rfl⟩

theorem partitioned_sum (s : UpdateData) (bs : List ByteBuffer) (h : PartitionedBy s bs) :
    (s.m_data.map (fun seg => seg.m_blockCount)).sum = bs.length := by
  obtain ⟨rinit, rlast, hflat, hdata, _⟩ := h
  rw [hdata, ← hflat]
  simp [segOf, List.map_map, Function.comp_def, List.length_flatten]

/-- C3: for every sequence of `AddUpdateBlock` and `AddOutOfRangeGUID` calls
on a freshly constructed `UpdateData`, the calls all succeed and the
segments cut the appended blocks b1..bk into contiguous runs in append
order: there are runs whose concatenation is the list of blocks, segment j
holds exactly the bytes of run j with block count the length of run j; hence
the segment buffers in index order concatenate to b1 ++ ... ++ bk and the
block counts sum to k. -/
theorem segments_partition_blocks (env : Env) (ops : List Op)
    (hops : ∀ op ∈ ops, op.isGuid = true ∨ op.isBlock = true) :
    ∃ (s : UpdateData) (runs : List (List ByteBuffer)),
      run env UpdateData.new ops = some s ∧
      runs.flatten = blocksOf ops ∧
      s.m_data = runs.map (fun r => { m_buffer := r.flatten, m_blockCount := r.length }) ∧
      (s.m_data.map (fun seg => seg.m_buffer)).flatten = (blocksOf ops).flatten ∧
      (s.m_data.map (fun seg => seg.m_blockCount)).sum = (blocksOf ops).length := by
  obtain ⟨s, hrun, rinit, rlast, hflat, hdata, _⟩ :=
    run_partitioned env ops UpdateData.new [] new_partitioned hops
  simp only [List.nil_append] at hflat
  have hmap : s.m_data = (rinit ++ [rlast]).map segOf := by simp [hdata]
  refine ⟨s, rinit ++ [rlast], by simpa using hrun, hflat, hmap, ?_, ?_⟩
  · rw [hmap, ← hflat]
    simp [segOf, List.map_map, Function.comp_def, List.flatten_flatten]
  · rw [hmap, ← hflat]
    simp [segOf, List.map_map, Function.comp_def, List.length_flatten]

/-- C3 (witness): two blocks appended around one identifier. -/
theorem segments_partition_blocks_witness :
    ∃ (s : UpdateData) (runs : List (List ByteBuffer)),
      run sampleEnv UpdateData.new [Op.addBlock [1, 2], Op.addGuid 7, Op.addBlock [3]] = some s ∧
      runs.flatten = blocksOf [Op.addBlock [1, 2], Op.addGuid 7, Op.addBlock [3]] ∧
      s.m_data = runs.map (fun r => { m_buffer := r.flatten, m_blockCount := r.length }) ∧
      (s.m_data.map (fun seg => seg.m_buffer)).flatten =
        (blocksOf [Op.addBlock [1, 2], Op.addGuid 7, Op.addBlock [3]]).flatten ∧
      (s.m_data.map (fun seg => seg.m_blockCount)).sum =
        (blocksOf [Op.addBlock [1, 2], Op.addGuid 7, Op.addBlock [3]]).length :=
  segments_partition_blocks sampleEnv [Op.addBlock [1, 2], Op.addGuid 7, Op.addBlock [3]]
    (by decide)


theorem foldl_append_eq {α : Type} (f : α → List Byte) (l : List α) (init : List Byte) :
    l.foldl (fun acc g => acc ++ f g) init = init ++ l.flatMap f := by
  induction l generalizing init with
  | nil => simp
  | cons x xs ih => simp [ih, List.flatMap_cons]

theorem buf_eq (env : Env) (s : UpdateData) (seg : UpdatePacket) :
    BuildPacket.buf env s seg =
      le32 (blockCountHeader s seg) ++ outOfRangeBlock env s.m_outOfRangeGUIDs ++ seg.m_buffer := by
  unfold BuildPacket.buf outOfRangeBlock blockCountHeader ByteBuffer.append
  cases h : s.m_outOfRangeGUIDs.isEmpty <;> simp [foldl_append_eq]

theorem length_flatMap_le (f : ObjectGuid → List Byte) (hf : ∀ g, (f g).length ≤ 9)
    (l : List ObjectGuid) : (l.flatMap f).length ≤ 9 * l.length := by
  induction l with
  | nil => simp
  | cons x xs ih =>
    have := hf x
    simp only [List.flatMap_cons, List.length_append, List.length_cons]
    omega

theorem outOfRangeBlock_length_le (env : Env) (hpack : ∀ g, (env.WriteAsPacked g).length ≤ 9)
    (set : GuidSet) : (outOfRangeBlock env set).length ≤ 5 + 9 * set.length := by
  unfold outOfRangeBlock
  have := length_flatMap_le env.WriteAsPacked hpack set
  split
  · simp
  · simp only [List.length_append, List.length_cons, List.length_nil, le32]
    omega

theorem buf_length_le (env : Env) (hpack : ∀ g, (env.WriteAsPacked g).length ≤ 9)
    (s : UpdateData) (seg : UpdatePacket) :
    (BuildPacket.buf env s seg).length ≤ 9 + 9 * s.m_outOfRangeGUIDs.length + seg.m_buffer.length := by
  rw [buf_eq]
  have := outOfRangeBlock_length_le env hpack s.m_outOfRangeGUIDs
  simp [le32]
  omega


theorem blockOfSize_length (n : Nat) : (blockOfSize n).length = n := by
  unfold blockOfSize
  exact List.length_replicate n 0


theorem run_one_block_split (env : Env) (b : ByteBuffer)
    (h : ¬ 128 + b.length < env.MAX_NETCLIENT_PACKET_SIZE) :
    run env UpdateData.new [Op.addBlock b] =
      some { m_outOfRangeGUIDs := [],
             m_data := [{ m_buffer := [], m_blockCount := 0 }, { m_buffer := b, m_blockCount := 1 }],
             m_currentIndex := 1, m_afterCreatePacket := [] } := by
  have hadd := AddUpdateBlock_of_last env UpdateData.new b [] { m_buffer := [], m_blockCount := 0 }
    rfl rfl
  have h1 : ¬ 128 + 9 * UpdateData.new.m_outOfRangeGUIDs.length
      + ({ m_buffer := [], m_blockCount := 0 } : UpdatePacket).m_buffer.length + b.length
      < env.MAX_NETCLIENT_PACKET_SIZE := by
    simpa [UpdateData.new] using h
  rw [if_neg h1] at hadd
  simp only [run, step, hadd]
  rfl

theorem run_two_blocks_then_guids (env : Env) (b1 b2 : ByteBuffer) (gs : List ObjectGuid)
    (h1 : 128 + b1.length < env.MAX_NETCLIENT_PACKET_SIZE)
    (h2 : 128 + (b1.length + b2.length) < env.MAX_NETCLIENT_PACKET_SIZE) :
    run env UpdateData.new [Op.addBlock b1, Op.addBlock b2, Op.addGuids gs] =
      some { m_outOfRangeGUIDs := GuidSet.insertAll gs [],
             m_data := [{ m_buffer := b1 ++ b2, m_blockCount := 2 }],
             m_currentIndex := 0, m_afterCreatePacket := [] } := by
  have hadd1 := AddUpdateBlock_of_last env UpdateData.new b1 [] { m_buffer := [], m_blockCount := 0 }
    rfl rfl
  rw [if_pos (by simpa [UpdateData.new] using h1)] at hadd1
  have hadd2 := AddUpdateBlock_of_last env
    { UpdateData.new with m_data := [{ m_buffer := b1, m_blockCount := 1 }] } b2 []
    { m_buffer := b1, m_blockCount := 1 } rfl rfl
  rw [if_pos (by simpa [UpdateData.new, Nat.add_assoc] using h2)] at hadd2
  simp only [List.nil_append, UpdateData.new] at hadd1 hadd2
  simp only [run, step, UpdateData.new, hadd1, hadd2, AddOutOfRangeGUIDs]


theorem run_total_preserves (env : Env) (P : UpdateData → Prop) (Q : Op → Prop)
    (hstep : ∀ s op, P s → Q op → ∃ s1, step env s op = some s1 ∧ P s1) :
    ∀ (ops : List Op) (s : UpdateData), P s → (∀ op ∈ ops, Q op) →
      ∃ s1, run env s ops = some s1 ∧ P s1 := by
  intro ops
  induction ops with
  | nil => intro s hP _; exact ⟨s, rfl, hP⟩
  | cons op rest ih =>
    intro s hP hops
    obtain ⟨s1, hs1, hP1⟩ := hstep s op hP (hops op (by simp))
    obtain ⟨s2, hs2, hP2⟩ := ih s1 hP1 (fun o ho => hops o (by simp [ho]))
    exact ⟨s2, by simp [run, hs1, hs2], hP2⟩

theorem packGuid_length_le (g : ObjectGuid) : (packGuid g).length ≤ 9 := by
  unfold packGuid
  have h := List.length_filter_le (fun b : Byte => b != 0)
    ((List.range 8).map (fun i => g / 256 ^ i % 256))
  simp only [List.length_cons, List.length_map, List.length_range] at h ⊢
  omega

theorem insertAll_fullGuids : GuidSet.insertAll fullGuids [] = fullGuids := by decide

set_option maxRecDepth 4000 in
theorem fullGuids_block_length : (outOfRangeBlock sampleEnv fullGuids).length = 131 := by
  decide

/-- C2 (counterexample): with the ceiling 32766 and the packed encoding of at
most 9 bytes, (a) one block of 32763 bytes appended to a fresh batch is put
alone into segment 1, whose payload is 32767 bytes, above the ceiling, though
the block's own size is below it; (b) two blocks of 16000 and 16637 bytes
share segment 0, and after fourteen identifiers are added the payload of that
two-block segment is 32772 bytes. -/
theorem payload_ceiling_counterexample :
    (∀ g, (sampleEnv.WriteAsPacked g).length ≤ 9) ∧
    sampleEnv.MAX_NETCLIENT_PACKET_SIZE = 32766 ∧
    run sampleEnv UpdateData.new [Op.addBlock (blockOfSize 32763)] = some loneBlockState ∧
    loneBlockState.m_data[1]? = some { m_buffer := blockOfSize 32763, m_blockCount := 1 } ∧
    (BuildPacket.buf sampleEnv loneBlockState
      { m_buffer := blockOfSize 32763, m_blockCount := 1 }).length = 32767 ∧
    ¬ (sampleEnv.MAX_NETCLIENT_PACKET_SIZE < (blockOfSize 32763).length) ∧
    run sampleEnv UpdateData.new
      [Op.addBlock (blockOfSize 16000), Op.addBlock (blockOfSize 16637), Op.addGuids fullGuids]
      = some lateGuidState ∧
    lateGuidState.m_data[0]? =
      some { m_buffer := blockOfSize 16000 ++ blockOfSize 16637, m_blockCount := 2 } ∧
    (BuildPacket.buf sampleEnv lateGuidState
      { m_buffer := blockOfSize 16000 ++ blockOfSize 16637, m_blockCount := 2 }).length
      = 32772 := by
  refine ⟨packGuid_length_le, rfl, ?_, rfl, ?_, ?_, ?_, rfl, ?_⟩
  · exact run_one_block_split sampleEnv (blockOfSize 32763)
      (by rw [blockOfSize_length]; decide)
  · rw [buf_eq]
    simp only [List.length_append, blockOfSize_length, loneBlockState, outOfRangeBlock, le32,
      List.isEmpty_nil, if_true, List.length_nil, List.length_cons]
  · rw [blockOfSize_length]; decide
  · have h := run_two_blocks_then_guids sampleEnv (blockOfSize 16000) (blockOfSize 16637)
      fullGuids (by rw [blockOfSize_length]; decide)
      (by rw [blockOfSize_length, blockOfSize_length]; decide)
    rw [insertAll_fullGuids] at h
    exact h
  · rw [buf_eq]
    have h : lateGuidState.m_outOfRangeGUIDs = fullGuids := rfl
    rw [h]
    simp only [List.length_append, blockOfSize_length, fullGuids_block_length, le32,
      List.length_nil, List.length_cons]

/-! ## The out-of-range set -/

theorem mem_insert (g x : ObjectGuid) (set : GuidSet) :
    x ∈ GuidSet.insert g set ↔ x = g ∨ x ∈ set := by
  induction set with
  | nil => simp [GuidSet.insert]
  | cons y ys ih =>
    unfold GuidSet.insert
    split
    · simp
    · split
      · rename_i _ heq
        subst heq
        simp
      · simp only [List.mem_cons, ih]
        tauto

theorem insert_sorted (g : ObjectGuid) (set : GuidSet)
    (h : set.Pairwise (fun a b => a < b)) :
    (GuidSet.insert g set).Pairwise (fun a b => a < b) := by
  induction set with
  | nil => simp [GuidSet.insert]
  | cons y ys ih =>
    rw [List.pairwise_cons] at h
    unfold GuidSet.insert
    split
    · rename_i hlt
      rw [List.pairwise_cons]
      refine ⟨?_, List.pairwise_cons.mpr h⟩
      intro a ha
      rcases List.mem_cons.mp ha with rfl | ha
      · exact hlt
      · exact Nat.lt_trans hlt (h.1 a ha)
    · split
      · exact List.pairwise_cons.mpr h
      · rename_i hnlt hne
        rw [List.pairwise_cons]
        refine ⟨?_, ih h.2⟩
        intro a ha
        rcases (mem_insert g a ys).mp ha with rfl | ha
        · exact Nat.lt_of_le_of_ne (Nat.le_of_not_lt hnlt) (fun h => hne h.symm)
        · exact h.1 a ha

theorem insertAll_sorted (guids : List ObjectGuid) (set : GuidSet)
    (h : set.Pairwise (fun a b => a < b)) :
    (GuidSet.insertAll guids set).Pairwise (fun a b => a < b) := by
  unfold GuidSet.insertAll
  induction guids generalizing set with
  | nil => simpa using h
  | cons g gs ih => exact ih _ (insert_sorted g set h)

theorem step_sorted (env : Env) (s : UpdateData) (op : Op) (s1 : UpdateData)
    (hP : s.m_outOfRangeGUIDs.Pairwise (fun a b => a < b)) (h : step env s op = some s1) :
    s1.m_outOfRangeGUIDs.Pairwise (fun a b => a < b) := by
  cases op with
  | addGuid g =>
    simp only [step, AddOutOfRangeGUID, Option.some.injEq] at h
    subst h; exact insert_sorted g _ hP
  | addGuids gs =>
    simp only [step, AddOutOfRangeGUIDs, Option.some.injEq] at h
    subst h; exact insertAll_sorted gs _ hP
  | addPacket p =>
    simp only [step, AddAfterCreatePacket, Option.some.injEq] at h
    subst h; exact hP
  | clear =>
    simp only [step, Clear, Option.some.injEq] at h
    subst h; exact List.Pairwise.nil
  | addBlock b =>
    simp only [step, AddUpdateBlock] at h
    split at h
    · simp at h
    · split at h
      · simp only [Option.some.injEq] at h
        subst h; exact hP
      · split at h
        · simp at h
        · simp only [Option.some.injEq] at h
          subst h; exact hP

theorem reachable_nodup (env : Env) (s : UpdateData) (hr : Reachable env s) :
    s.m_outOfRangeGUIDs.Nodup := by
  obtain ⟨ops, h⟩ := hr
  have hs := run_preserves env (fun s => s.m_outOfRangeGUIDs.Pairwise (fun a b => a < b))
    (step_sorted env) ops UpdateData.new s List.Pairwise.nil h
  exact hs.imp (fun hab => Nat.ne_of_lt hab)

theorem readU32_le32 (n : Nat) : readU32 (le32 n) = n % 2 ^ 32 := by
  simp only [readU32, le32, List.getD_cons_zero, List.getD_cons_succ]
  omega

theorem run_guid_fit_split (env : Env) (g : ObjectGuid) (b1 b2 : ByteBuffer)
    (h1 : 128 + 9 + b1.length < env.MAX_NETCLIENT_PACKET_SIZE)
    (h2 : ¬ 128 + 9 + (b1.length + b2.length) < env.MAX_NETCLIENT_PACKET_SIZE) :
    run env UpdateData.new [Op.addGuid g, Op.addBlock b1, Op.addBlock b2] =
      some { m_outOfRangeGUIDs := [g],
             m_data := [{ m_buffer := b1, m_blockCount := 1 }, { m_buffer := b2, m_blockCount := 1 }],
             m_currentIndex := 1, m_afterCreatePacket := [] } := by
  have hadd1 := AddUpdateBlock_of_last env (AddOutOfRangeGUID UpdateData.new g) b1 []
    { m_buffer := [], m_blockCount := 0 } rfl rfl
  rw [if_pos (by simpa [UpdateData.new, AddOutOfRangeGUID, GuidSet.insert] using h1)] at hadd1
  have hadd2 := AddUpdateBlock_of_last env
    { AddOutOfRangeGUID UpdateData.new g with m_data := [{ m_buffer := b1, m_blockCount := 1 }] }
    b2 [] { m_buffer := b1, m_blockCount := 1 } rfl rfl
  rw [if_neg (by simpa [UpdateData.new, AddOutOfRangeGUID, GuidSet.insert, Nat.add_assoc]
    using h2)] at hadd2
  simp only [List.nil_append, UpdateData.new, AddOutOfRangeGUID, GuidSet.insert] at hadd1 hadd2
  simp [run, step, UpdateData.new, hadd1, hadd2, AddOutOfRangeGUID, GuidSet.insert]

theorem run_splitState :
    run sampleEnv UpdateData.new
      [Op.addGuid 7, Op.addBlock (blockOfSize 32626), Op.addBlock [1, 2, 3]] = some splitState :=
  run_guid_fit_split sampleEnv 7 (blockOfSize 32626) [1, 2, 3]
    (by rw [blockOfSize_length]; decide) (by rw [blockOfSize_length]; decide)

/-! ## The payload of BuildPacket -/

theorem take_four_buf (env : Env) (s : UpdateData) (seg : UpdatePacket) :
    (BuildPacket.buf env s seg).take 4 = le32 (blockCountHeader s seg) := by
  rw [buf_eq]
  simp [le32]

theorem header_eq (env : Env) (s : UpdateData) (seg : UpdatePacket) :
    readU32 ((BuildPacket.buf env s seg).take 4) = blockCountHeader s seg % 2 ^ 32 := by
  rw [take_four_buf, readU32_le32]

theorem payload_of_valid (env : Env) (s : UpdateData) (i : Nat) (seg : UpdatePacket)
    (hi : s.m_data[i]? = some seg) :
    BuildPacket.payload env s i = some (BuildPacket.buf env s seg) := by
  simp [BuildPacket.payload, hi]

/-- C4 (counterexample): identifier 7 is added to a fresh batch, then a block
of 32626 bytes and the block 1, 2, 3 are appended, which gives two segments;
the payload `BuildPacket(1)` assembles for the second segment is the header 2,
the out-of-range block 4, 1 0 0 0, 1 7 and the bytes 1, 2, 3, and the packet
returned carries exactly these bytes: the out-of-range block is present in a
packet other than the first. -/
theorem outOfRange_block_counterexample :
    run sampleEnv UpdateData.new
      [Op.addGuid 7, Op.addBlock (blockOfSize 32626), Op.addBlock [1, 2, 3]] = some splitState ∧
    splitState.m_outOfRangeGUIDs = [7] ∧
    splitState.m_data[1]? = some { m_buffer := [1, 2, 3], m_blockCount := 1 } ∧
    BuildPacket.payload sampleEnv splitState 1
      = some ([2, 0, 0, 0] ++ [4, 1, 0, 0, 0, 1, 7] ++ [1, 2, 3]) ∧
    BuildPacket.payload sampleEnv splitState 1 ≠ some ([1, 0, 0, 0] ++ [1, 2, 3]) ∧
    BuildPacket sampleEnv splitState 1
      = some ({ m_opcode := 169, contents := [2, 0, 0, 0, 4, 1, 0, 0, 0, 1, 7, 1, 2, 3] }, []) := by
  refine ⟨run_splitState, rfl, rfl, ?_, ?_, ?_⟩
  · decide
  · decide
  · decide

/-- C4 (as amended): for every batch and every valid segment index i, the
payload `BuildPacket(i)` assembles is the 4-byte header, then the
out-of-range block, then the segment buffer, with the same out-of-range block
for every index: when the set is non-empty the block (type marker, count,
packed identifiers) is present in the payload of every segment, the first
and the later ones alike; when the set is empty it is present in none, the
payload being the header followed by the segment buffer. -/
theorem outOfRange_block_in_every_payload (env : Env) (s : UpdateData) (i : Nat)
    (seg : UpdatePacket) (hi : s.m_data[i]? = some seg) :
    BuildPacket.payload env s i =
      some (le32 (blockCountHeader s seg) ++ outOfRangeBlock env s.m_outOfRangeGUIDs
        ++ seg.m_buffer) ∧
    (s.m_outOfRangeGUIDs ≠ [] →
      outOfRangeBlock env s.m_outOfRangeGUIDs =
        [env.UPDATETYPE_OUT_OF_RANGE_OBJECTS % 256] ++ le32 s.m_outOfRangeGUIDs.length
          ++ s.m_outOfRangeGUIDs.flatMap env.WriteAsPacked) ∧
    (s.m_outOfRangeGUIDs = [] →
      outOfRangeBlock env s.m_outOfRangeGUIDs = [] ∧
      BuildPacket.payload env s i = some (le32 seg.m_blockCount ++ seg.m_buffer)) := by
  refine ⟨?_, ?_, ?_⟩
  · rw [payload_of_valid env s i seg hi, buf_eq]
  · intro hne
    have h : s.m_outOfRangeGUIDs.isEmpty = false := by
      cases hs : s.m_outOfRangeGUIDs with
      | nil => exact absurd hs hne
      | cons x xs => rfl
    simp [outOfRangeBlock, h]
  · intro hnil
    rw [payload_of_valid env s i seg hi, buf_eq]
    simp [outOfRangeBlock, blockCountHeader, hnil]

/-- C4 (witness): the second segment of the two-segment state. -/
theorem outOfRange_block_in_every_payload_witness :
    BuildPacket.payload sampleEnv splitState 1 =
      some (le32 (blockCountHeader splitState { m_buffer := [1, 2, 3], m_blockCount := 1 })
        ++ outOfRangeBlock sampleEnv splitState.m_outOfRangeGUIDs ++ [1, 2, 3]) ∧
    (splitState.m_outOfRangeGUIDs ≠ [] →
      outOfRangeBlock sampleEnv splitState.m_outOfRangeGUIDs =
        [sampleEnv.UPDATETYPE_OUT_OF_RANGE_OBJECTS % 256]
          ++ le32 splitState.m_outOfRangeGUIDs.length
          ++ splitState.m_outOfRangeGUIDs.flatMap sampleEnv.WriteAsPacked) ∧
    (splitState.m_outOfRangeGUIDs = [] →
      outOfRangeBlock sampleEnv splitState.m_outOfRangeGUIDs = [] ∧
      BuildPacket.payload sampleEnv splitState 1 = some (le32 1 ++ [1, 2, 3])) :=
  outOfRange_block_in_every_payload sampleEnv splitState 1
    { m_buffer := [1, 2, 3], m_blockCount := 1 } rfl

theorem sum_headers_of_nil (env : Env) (s : UpdateData) (hnil : s.m_outOfRangeGUIDs = [])
    (hsmall : ∀ seg ∈ s.m_data, seg.m_blockCount + 1 < 2 ^ 32) :
    (headers env s).sum = (s.m_data.map (fun seg => seg.m_blockCount)).sum := by
  unfold headers
  congr 1
  apply List.map_congr_left
  intro seg hseg
  have := hsmall seg hseg
  rw [header_eq]
  simp only [blockCountHeader, hnil, List.isEmpty_nil, if_true]
  omega

theorem sum_map_succ (l : List UpdatePacket) :
    (l.map (fun seg => seg.m_blockCount + 1)).sum
      = (l.map (fun seg => seg.m_blockCount)).sum + l.length := by
  induction l with
  | nil => rfl
  | cons x xs ih =>
    simp only [List.map_cons, List.sum_cons, List.length_cons, ih]
    omega

theorem sum_headers_of_ne_nil (env : Env) (s : UpdateData) (hne : s.m_outOfRangeGUIDs ≠ [])
    (hsmall : ∀ seg ∈ s.m_data, seg.m_blockCount + 1 < 2 ^ 32) :
    (headers env s).sum = (s.m_data.map (fun seg => seg.m_blockCount)).sum + s.m_data.length := by
  rw [← sum_map_succ]
  unfold headers
  congr 1
  apply List.map_congr_left
  intro seg hseg
  have := hsmall seg hseg
  have h : s.m_outOfRangeGUIDs.isEmpty = false := by
    cases hs : s.m_outOfRangeGUIDs with
    | nil => exact absurd hs hne
    | cons x xs => rfl
  rw [header_eq]
  simp only [blockCountHeader, h, Bool.false_eq_true, if_false]
  omega

/-- C5 (counterexample): identifier 7 is added to a fresh batch, then a block
of 32626 bytes and the block 1, 2, 3 are appended; the two segments hold one
block each, both payloads carry the header 2, and the headers sum to 4, not
to (2 appended blocks) + 1. -/
theorem header_sum_counterexample :
    run sampleEnv UpdateData.new
      [Op.addGuid 7, Op.addBlock (blockOfSize 32626), Op.addBlock [1, 2, 3]] = some splitState ∧
    (blocksOf [Op.addGuid 7, Op.addBlock (blockOfSize 32626), Op.addBlock [1, 2, 3]]).length = 2 ∧
    splitState.m_outOfRangeGUIDs ≠ [] ∧
    headers sampleEnv splitState = [2, 2] ∧
    (headers sampleEnv splitState).sum ≠ 2 + 1 := by
  have hh : headers sampleEnv splitState = [2, 2] := by
    simp only [headers, splitState, List.map_cons, List.map_nil, header_eq, blockCountHeader]
    decide
  refine ⟨run_splitState, rfl, by decide, hh, ?_⟩
  rw [hh]
  decide

/-- C5 (as amended): for every batch and every valid segment index i the
uint32 block count header at the start of the payload of `BuildPacket(i)` is
the segment's blockCount when the out-of-range set is empty and
blockCount + 1 (modulo 2^32) when it is not; and after any sequence of
`AddUpdateBlock` and `AddOutOfRangeGUID` calls on a fresh batch (no count
wrapping), the headers of all segments sum to the number of appended blocks
when the set is empty, and to the number of appended blocks plus the number
of segments when it is not: the out-of-range block is counted once in every
packet. -/
theorem blockCount_header (env : Env) (ops : List Op)
    (hops : ∀ op ∈ ops, op.isGuid = true ∨ op.isBlock = true) :
    (∀ (s : UpdateData) (i : Nat) (seg : UpdatePacket), s.m_data[i]? = some seg →
      ∃ P, BuildPacket.payload env s i = some P ∧
        readU32 (P.take 4) =
          (if s.m_outOfRangeGUIDs = [] then seg.m_blockCount else seg.m_blockCount + 1)
            % 2 ^ 32) ∧
    ∃ s, run env UpdateData.new ops = some s ∧
      ((∀ seg ∈ s.m_data, seg.m_blockCount + 1 < 2 ^ 32) →
        (headers env s).sum =
          (blocksOf ops).length + (if s.m_outOfRangeGUIDs = [] then 0 else s.m_data.length)) := by
  constructor
  · intro s i seg hi
    refine ⟨_, payload_of_valid env s i seg hi, ?_⟩
    rw [header_eq]
    by_cases hnil : s.m_outOfRangeGUIDs = []
    · simp [blockCountHeader, hnil]
    · have h : s.m_outOfRangeGUIDs.isEmpty = false := by
        cases hs : s.m_outOfRangeGUIDs with
        | nil => exact absurd hs hnil
        | cons x xs => rfl
      simp [blockCountHeader, hnil, h]
  · obtain ⟨s, hrun, hpart⟩ := run_partitioned env ops UpdateData.new [] new_partitioned hops
    simp only [List.nil_append] at hpart
    have hsum := partitioned_sum s (blocksOf ops) hpart
    refine ⟨s, hrun, ?_⟩
    intro hsmall
    by_cases hnil : s.m_outOfRangeGUIDs = []
    · rw [sum_headers_of_nil env s hnil hsmall, hsum]
      simp [hnil]
    · rw [sum_headers_of_ne_nil env s hnil hsmall, hsum]
      simp [hnil]

/-- C5 (witness): one identifier, then the block 1, 2, 3. -/
theorem blockCount_header_witness :
    (∀ (s : UpdateData) (i : Nat) (seg : UpdatePacket), s.m_data[i]? = some seg →
      ∃ P, BuildPacket.payload sampleEnv s i = some P ∧
        readU32 (P.take 4) =
          (if s.m_outOfRangeGUIDs = [] then seg.m_blockCount else seg.m_blockCount + 1)
            % 2 ^ 32) ∧
    ∃ s, run sampleEnv UpdateData.new [Op.addGuid 7, Op.addBlock [1, 2, 3]] = some s ∧
      ((∀ seg ∈ s.m_data, seg.m_blockCount + 1 < 2 ^ 32) →
        (headers sampleEnv s).sum =
          (blocksOf [Op.addGuid 7, Op.addBlock [1, 2, 3]]).length
            + (if s.m_outOfRangeGUIDs = [] then 0 else s.m_data.length)) :=
  blockCount_header sampleEnv [Op.addGuid 7, Op.addBlock [1, 2, 3]] (by decide)

/-- C6: in every reachable state and for every valid segment index i, the
payload `BuildPacket(i)` assembles is exactly the 4-byte little-endian block
count; then, if and only if the out-of-range set is non-empty, the byte
`UPDATETYPE_OUT_OF_RANGE_OBJECTS`, the 4-byte little-endian number of ids and
the packed encoding of every id of the set, the ids being pairwise distinct;
then the segment buffer unchanged. Its length is 4, plus 0 or 5 + the total
packed length, plus the size of the segment buffer. -/
theorem BuildPacket_payload_layout (env : Env) (s : UpdateData) (i : Nat) (seg : UpdatePacket)
    (hr : Reachable env s) (hi : s.m_data[i]? = some seg) :
    s.m_outOfRangeGUIDs.Nodup ∧
    BuildPacket.payload env s i = some
      (le32 (if s.m_outOfRangeGUIDs = [] then seg.m_blockCount else seg.m_blockCount + 1)
        ++ (if s.m_outOfRangeGUIDs = [] then []
            else [env.UPDATETYPE_OUT_OF_RANGE_OBJECTS % 256] ++ le32 s.m_outOfRangeGUIDs.length
              ++ s.m_outOfRangeGUIDs.flatMap env.WriteAsPacked)
        ++ seg.m_buffer) ∧
    (∀ P, BuildPacket.payload env s i = some P →
      P.length = 4
        + (if s.m_outOfRangeGUIDs = [] then 0
           else 5 + (s.m_outOfRangeGUIDs.map (fun g => (env.WriteAsPacked g).length)).sum)
        + seg.m_buffer.length) := by
  have hbuf : BuildPacket.buf env s seg =
      le32 (if s.m_outOfRangeGUIDs = [] then seg.m_blockCount else seg.m_blockCount + 1)
        ++ (if s.m_outOfRangeGUIDs = [] then []
            else [env.UPDATETYPE_OUT_OF_RANGE_OBJECTS % 256] ++ le32 s.m_outOfRangeGUIDs.length
              ++ s.m_outOfRangeGUIDs.flatMap env.WriteAsPacked)
        ++ seg.m_buffer := by
    rw [buf_eq]
    by_cases hnil : s.m_outOfRangeGUIDs = []
    · simp [blockCountHeader, outOfRangeBlock, hnil]
    · have h : s.m_outOfRangeGUIDs.isEmpty = false := by
        cases hs : s.m_outOfRangeGUIDs with
        | nil => exact absurd hs hnil
        | cons x xs => rfl
      simp [blockCountHeader, outOfRangeBlock, hnil, h]
  refine ⟨reachable_nodup env s hr, ?_, ?_⟩
  · rw [payload_of_valid env s i seg hi, hbuf]
  · intro P hP
    rw [payload_of_valid env s i seg hi, hbuf] at hP
    simp only [Option.some.injEq] at hP
    subst hP
    by_cases hnil : s.m_outOfRangeGUIDs = []
    · simp only [hnil, if_true, List.length_append, List.length_nil, le32, List.length_cons]
    · have hcomp : (List.length ∘ env.WriteAsPacked) = fun g => (env.WriteAsPacked g).length :=
        rfl
      simp only [hnil, if_false, List.length_append, List.length_nil, le32, List.length_cons,
        List.length_flatMap, hcomp]

/-- C6 (witness): the second segment of the two-segment state. -/
theorem BuildPacket_payload_layout_witness :
    splitState.m_outOfRangeGUIDs.Nodup ∧
    BuildPacket.payload sampleEnv splitState 1 = some
      (le32 (if splitState.m_outOfRangeGUIDs = [] then 1 else 1 + 1)
        ++ (if splitState.m_outOfRangeGUIDs = [] then []
            else [sampleEnv.UPDATETYPE_OUT_OF_RANGE_OBJECTS % 256]
              ++ le32 splitState.m_outOfRangeGUIDs.length
              ++ splitState.m_outOfRangeGUIDs.flatMap sampleEnv.WriteAsPacked)
        ++ [1, 2, 3]) ∧
    (∀ P, BuildPacket.payload sampleEnv splitState 1 = some P →
      P.length = 4
        + (if splitState.m_outOfRangeGUIDs = [] then 0
           else 5 + (splitState.m_outOfRangeGUIDs.map
              (fun g => (sampleEnv.WriteAsPacked g).length)).sum)
        + [1, 2, 3].length) :=
  BuildPacket_payload_layout sampleEnv splitState 1 { m_buffer := [1, 2, 3], m_blockCount := 1 }
    ⟨_, run_splitState⟩ rfl

/-! ## The framing of BuildPacket -/

theorem resize_nil (n : Nat) : ByteBuffer.resize [] n = List.replicate n 0 := by
  simp [ByteBuffer.resize]

theorem resize_behind_header (pre dst : List Byte) (n : Nat) (hpre : pre.length = 4) :
    ByteBuffer.resize (pre ++ dst) (n + 4) = pre ++ ByteBuffer.resize dst n := by
  unfold ByteBuffer.resize
  have h1 : (pre ++ dst).take (n + 4) = pre ++ dst.take n := by
    rw [List.take_append_eq_append_take, hpre]
    have : pre.take (n + 4) = pre := List.take_of_length_le (by omega)
    rw [this]
    congr 2
  have h2 : n + 4 - (pre ++ dst).length = n - dst.length := by
    simp only [List.length_append, hpre]
    omega
  rw [h1, h2, List.append_assoc]

theorem resize_length (buf : List Byte) (n : Nat) : (ByteBuffer.resize buf n).length = n := by
  simp only [ByteBuffer.resize, List.length_append, List.length_take, List.length_replicate]
  omega

theorem resize_of_le (buf : List Byte) (n : Nat) (h : n ≤ buf.length) :
    ByteBuffer.resize buf n = buf.take n := by
  simp [ByteBuffer.resize, Nat.sub_eq_zero_of_le h]

theorem le32_length (n : Nat) : (le32 n).length = 4 := rfl

theorem build_small (env : Env) (s : UpdateData) (seg : UpdatePacket)
    (h : (BuildPacket.buf env s seg).length ≤ 100) :
    BuildPacket.build env s seg =
      ({ m_opcode := env.SMSG_UPDATE_OBJECT, contents := BuildPacket.buf env s seg }, []) := by
  unfold BuildPacket.build
  simp only [ByteBuffer.wpos, ByteBuffer.append, List.nil_append]
  rw [if_neg (by omega)]

theorem build_large (env : Env) (s : UpdateData) (seg : UpdatePacket)
    (h : 100 < (BuildPacket.buf env s seg).length) :
    BuildPacket.build env s seg =
      if (BuildPacket.compress env (BuildPacket.buf env s seg)).dst_size = 0 then
        ({ m_opcode := env.MSG_NULL_ACTION,
           contents := le32 (BuildPacket.buf env s seg).length
             ++ (BuildPacket.compress env (BuildPacket.buf env s seg)).dst },
         (BuildPacket.compress env (BuildPacket.buf env s seg)).calls)
      else
        ({ m_opcode := env.SMSG_COMPRESSED_UPDATE_OBJECT,
           contents := le32 (BuildPacket.buf env s seg).length
             ++ ByteBuffer.resize (BuildPacket.compress env (BuildPacket.buf env s seg)).dst
                  (BuildPacket.compress env (BuildPacket.buf env s seg)).dst_size },
         (BuildPacket.compress env (BuildPacket.buf env s seg)).calls) := by
  have hput : ∀ cap : Nat, ByteBuffer.putU32 (ByteBuffer.resize [] (cap + 4)) 0
      (BuildPacket.buf env s seg).length
        = le32 (BuildPacket.buf env s seg).length ++ List.replicate cap 0 := by
    intro cap
    simp [ByteBuffer.putU32, resize_nil]
  have htake : ∀ rest : List Byte,
      (le32 (BuildPacket.buf env s seg).length ++ rest).take 4
        = le32 (BuildPacket.buf env s seg).length := by
    intro rest; simp [le32]
  have hdrop : ∀ rest : List Byte,
      (le32 (BuildPacket.buf env s seg).length ++ rest).drop 4 = rest := by
    intro rest; simp [le32]
  unfold BuildPacket.build BuildPacket.compress
  simp only [ByteBuffer.wpos]
  rw [if_pos h]
  simp only [hput, htake, hdrop]
  split
  · rfl
  · rw [resize_behind_header _ _ _ (le32_length _)]

theorem BuildPacket_of_valid (env : Env) (s : UpdateData) (i : Nat) (seg : UpdatePacket)
    (hi : s.m_data[i]? = some seg) :
    BuildPacket env s i = some (BuildPacket.build env s seg) := by
  simp [BuildPacket, hi]

theorem Compress_calls_head (env : Env) (dst : List Byte) (n : Nat) (src : List Byte) (m : Nat) :
    (Compress env dst n src m).calls.head? = some ZCall.deflateInit := by
  unfold Compress
  simp only
  split
  · rfl
  · split
    · rfl
    · split
      · rfl
      · split
        · rfl
        · split <;> rfl

theorem run_one_block_fit (env : Env) (b : ByteBuffer)
    (h : 128 + b.length < env.MAX_NETCLIENT_PACKET_SIZE) :
    run env UpdateData.new [Op.addBlock b] =
      some { m_outOfRangeGUIDs := [],
             m_data := [{ m_buffer := b, m_blockCount := 1 }],
             m_currentIndex := 0, m_afterCreatePacket := [] } := by
  have hadd := AddUpdateBlock_of_last env UpdateData.new b [] { m_buffer := [], m_blockCount := 0 }
    rfl rfl
  rw [if_pos (by simpa [UpdateData.new] using h)] at hadd
  simp only [List.nil_append, UpdateData.new] at hadd
  simp only [run, step, UpdateData.new, hadd]

/-- C7: for every valid segment index i the framing depends on the payload
size alone: a payload of at most 100 bytes (100 included) is returned as it
is under `SMSG_UPDATE_OBJECT`, with no zlib call made; for a payload of more
than 100 bytes `BuildPacket` returns after calling `Compress` on it, which
starts with `deflateInit`. In particular (the ceiling being above 178) one
block of 50 bytes appended to a fresh batch gives one segment, whose packet
is the raw payload of 54 bytes with block count 1. -/
theorem BuildPacket_framing (env : Env) (s : UpdateData) (i : Nat) (seg : UpdatePacket)
    (hi : s.m_data[i]? = some seg) :
    ((BuildPacket.buf env s seg).length ≤ 100 →
      BuildPacket env s i =
        some ({ m_opcode := env.SMSG_UPDATE_OBJECT, contents := BuildPacket.buf env s seg }, [])) ∧
    (100 < (BuildPacket.buf env s seg).length →
      ∃ pkt calls, BuildPacket env s i = some (pkt, calls) ∧
        calls = (BuildPacket.compress env (BuildPacket.buf env s seg)).calls ∧
        calls.head? = some ZCall.deflateInit) ∧
    (∀ b : ByteBuffer, b.length = 50 → 128 + 50 < env.MAX_NETCLIENT_PACKET_SIZE →
      ∃ s1, run env UpdateData.new [Op.addBlock b] = some s1 ∧
        s1.m_data = [{ m_buffer := b, m_blockCount := 1 }] ∧
        GetPacketCount s1 = 1 ∧
        BuildPacket.payload env s1 0 = some (le32 1 ++ b) ∧
        (le32 1 ++ b).length = 54 ∧
        BuildPacket env s1 0 =
          some ({ m_opcode := env.SMSG_UPDATE_OBJECT, contents := le32 1 ++ b }, [])) := by
  refine ⟨?_, ?_, ?_⟩
  · intro hsmall
    rw [BuildPacket_of_valid env s i seg hi, build_small env s seg hsmall]
  · intro hlarge
    rw [BuildPacket_of_valid env s i seg hi, build_large env s seg hlarge]
    split
    · exact ⟨_, _, rfl, rfl, Compress_calls_head _ _ _ _ _⟩
    · exact ⟨_, _, rfl, rfl, Compress_calls_head _ _ _ _ _⟩
  · intro b hb hmax
    refine ⟨_, run_one_block_fit env b (by omega), rfl, rfl, ?_, ?_, ?_⟩
    · simp [BuildPacket.payload, buf_eq, blockCountHeader, outOfRangeBlock]
    · simp [le32, hb]
    · have hbuf : BuildPacket.buf env
          { m_outOfRangeGUIDs := [], m_data := [{ m_buffer := b, m_blockCount := 1 }],
            m_currentIndex := 0, m_afterCreatePacket := [] }
          { m_buffer := b, m_blockCount := 1 } = le32 1 ++ b := by
        simp [buf_eq, blockCountHeader, outOfRangeBlock]
      have hsmall : (BuildPacket.buf env
          { m_outOfRangeGUIDs := [], m_data := [{ m_buffer := b, m_blockCount := 1 }],
            m_currentIndex := 0, m_afterCreatePacket := [] }
          { m_buffer := b, m_blockCount := 1 }).length ≤ 100 := by
        rw [hbuf]; simp [le32, hb]
      rw [BuildPacket_of_valid env
          { m_outOfRangeGUIDs := [], m_data := [{ m_buffer := b, m_blockCount := 1 }],
            m_currentIndex := 0, m_afterCreatePacket := [] }
          0 { m_buffer := b, m_blockCount := 1 } rfl,
        build_small env _ _ hsmall, hbuf]

/-- C7 (witness): the second segment of the two-segment state. -/
theorem BuildPacket_framing_witness :
    ((BuildPacket.buf sampleEnv splitState { m_buffer := [1, 2, 3], m_blockCount := 1 }).length
        ≤ 100 →
      BuildPacket sampleEnv splitState 1 =
        some ({ m_opcode := sampleEnv.SMSG_UPDATE_OBJECT,
                contents := BuildPacket.buf sampleEnv splitState
                  { m_buffer := [1, 2, 3], m_blockCount := 1 } }, [])) ∧
    (100 < (BuildPacket.buf sampleEnv splitState
        { m_buffer := [1, 2, 3], m_blockCount := 1 }).length →
      ∃ pkt calls, BuildPacket sampleEnv splitState 1 = some (pkt, calls) ∧
        calls = (BuildPacket.compress sampleEnv (BuildPacket.buf sampleEnv splitState
          { m_buffer := [1, 2, 3], m_blockCount := 1 })).calls ∧
        calls.head? = some ZCall.deflateInit) ∧
    (∀ b : ByteBuffer, b.length = 50 → 128 + 50 < sampleEnv.MAX_NETCLIENT_PACKET_SIZE →
      ∃ s1, run sampleEnv UpdateData.new [Op.addBlock b] = some s1 ∧
        s1.m_data = [{ m_buffer := b, m_blockCount := 1 }] ∧
        GetPacketCount s1 = 1 ∧
        BuildPacket.payload sampleEnv s1 0 = some (le32 1 ++ b) ∧
        (le32 1 ++ b).length = 54 ∧
        BuildPacket sampleEnv s1 0 =
          some ({ m_opcode := sampleEnv.SMSG_UPDATE_OBJECT, contents := le32 1 ++ b }, [])) :=
  BuildPacket_framing sampleEnv splitState 1 { m_buffer := [1, 2, 3], m_blockCount := 1 } rfl

/-- C8: for every valid segment index whose payload P is longer than 100 bytes
and for which `Compress` stores a non-zero size n, `BuildPacket` returns a
packet with opcode `SMSG_COMPRESSED_UPDATE_OBJECT` of exactly 4 + n bytes: the
little-endian uint32 length of P, then the first n bytes of the destination
area as `Compress` left it (`resize` would pad with zero bytes, were n larger
than the area). -/
theorem BuildPacket_compressed (env : Env) (s : UpdateData) (i : Nat) (seg : UpdatePacket)
    (hi : s.m_data[i]? = some seg)
    (hlarge : 100 < (BuildPacket.buf env s seg).length)
    (hn : (BuildPacket.compress env (BuildPacket.buf env s seg)).dst_size ≠ 0) :
    ∃ pkt calls, BuildPacket env s i = some (pkt, calls) ∧
      pkt.m_opcode = env.SMSG_COMPRESSED_UPDATE_OBJECT ∧
      pkt.contents.length
        = 4 + (BuildPacket.compress env (BuildPacket.buf env s seg)).dst_size ∧
      pkt.contents.take 4 = le32 (BuildPacket.buf env s seg).length ∧
      pkt.contents.drop 4
        = ByteBuffer.resize (BuildPacket.compress env (BuildPacket.buf env s seg)).dst
            (BuildPacket.compress env (BuildPacket.buf env s seg)).dst_size ∧
      ((BuildPacket.compress env (BuildPacket.buf env s seg)).dst_size
          ≤ (BuildPacket.compress env (BuildPacket.buf env s seg)).dst.length →
        pkt.contents.drop 4
          = (BuildPacket.compress env (BuildPacket.buf env s seg)).dst.take
              (BuildPacket.compress env (BuildPacket.buf env s seg)).dst_size) := by
  rw [BuildPacket_of_valid env s i seg hi, build_large env s seg hlarge, if_neg hn]
  refine ⟨_, _, rfl, rfl, ?_, ?_, ?_, ?_⟩
  · simp only [List.length_append, le32_length, resize_length]
  · simp [le32]
  · simp [le32]
  · intro hle
    rw [← resize_of_le _ _ hle]
    simp [le32]

theorem largeBlock_buf_length (env : Env) :
    (BuildPacket.buf env largeBlockState { m_buffer := blockOfSize 101, m_blockCount := 1 }).length
      = 105 := by
  rw [buf_eq]
  simp only [List.length_append, blockOfSize_length, largeBlockState, outOfRangeBlock, le32,
    List.isEmpty_nil, if_true, List.length_nil, List.length_cons]

theorem run_largeBlockState (env : Env) (h : 229 < env.MAX_NETCLIENT_PACKET_SIZE) :
    run env UpdateData.new [Op.addBlock (blockOfSize 101)] = some largeBlockState :=
  run_one_block_fit env (blockOfSize 101) (by rw [blockOfSize_length]; omega)

theorem store_compress_size :
    (BuildPacket.compress sampleEnv (BuildPacket.buf sampleEnv largeBlockState
      { m_buffer := blockOfSize 101, m_blockCount := 1 })).dst_size = 105 := by
  have h := largeBlock_buf_length sampleEnv
  simp only [BuildPacket.compress, Compress, sampleEnv, storeZlib, h]
  decide

theorem Compress_init_fail (env : Env) (dst : List Byte) (n : Nat) (src : List Byte) (m : Nat)
    (h : (env.zlib.deflateInit
      { next_in := [], avail_in := 0, next_out := [], avail_out := 0, total_out := 0 }
      env.CONFIG_UINT32_COMPRESSION).1 ≠ Z_OK) :
    Compress env dst n src m = { dst := dst, dst_size := 0, calls := [ZCall.deflateInit] } := by
  unfold Compress
  simp only
  rw [if_pos h]

theorem failing_compress (P : ByteBuffer) :
    BuildPacket.compress failingEnv P =
      { dst := List.replicate ((P.length + 13) % 2 ^ 32) 0, dst_size := 0,
        calls := [ZCall.deflateInit] } := by
  unfold BuildPacket.compress
  rw [Compress_init_fail failingEnv _ _ _ _ (by decide)]
  rfl

/-- C8 (witness): a block of 101 bytes and the storing zlib stand-in. -/
theorem BuildPacket_compressed_witness :
    ∃ pkt calls, BuildPacket sampleEnv largeBlockState 0 = some (pkt, calls) ∧
      pkt.m_opcode = sampleEnv.SMSG_COMPRESSED_UPDATE_OBJECT ∧
      pkt.contents.length
        = 4 + (BuildPacket.compress sampleEnv (BuildPacket.buf sampleEnv largeBlockState
            { m_buffer := blockOfSize 101, m_blockCount := 1 })).dst_size ∧
      pkt.contents.take 4 = le32 (BuildPacket.buf sampleEnv largeBlockState
        { m_buffer := blockOfSize 101, m_blockCount := 1 }).length ∧
      pkt.contents.drop 4
        = ByteBuffer.resize (BuildPacket.compress sampleEnv (BuildPacket.buf sampleEnv
              largeBlockState { m_buffer := blockOfSize 101, m_blockCount := 1 })).dst
            (BuildPacket.compress sampleEnv (BuildPacket.buf sampleEnv largeBlockState
              { m_buffer := blockOfSize 101, m_blockCount := 1 })).dst_size ∧
      ((BuildPacket.compress sampleEnv (BuildPacket.buf sampleEnv largeBlockState
            { m_buffer := blockOfSize 101, m_blockCount := 1 })).dst_size
          ≤ (BuildPacket.compress sampleEnv (BuildPacket.buf sampleEnv largeBlockState
            { m_buffer := blockOfSize 101, m_blockCount := 1 })).dst.length →
        pkt.contents.drop 4
          = (BuildPacket.compress sampleEnv (BuildPacket.buf sampleEnv largeBlockState
              { m_buffer := blockOfSize 101, m_blockCount := 1 })).dst.take
              (BuildPacket.compress sampleEnv (BuildPacket.buf sampleEnv largeBlockState
                { m_buffer := blockOfSize 101, m_blockCount := 1 })).dst_size) :=
  BuildPacket_compressed sampleEnv largeBlockState 0
    { m_buffer := blockOfSize 101, m_blockCount := 1 } rfl
    (by rw [largeBlock_buf_length]; decide)
    (by rw [store_compress_size]; decide)

/-- C9 (counterexample): one block of 101 bytes is appended to a fresh batch
and `deflateInit` fails; `BuildPacket(0)` returns a packet of 122 bytes (the
prefix 105, 0, 0, 0 and the 118 zero bytes of the destination area) with the
opcode of a default-constructed packet: its content size is not 0. -/
theorem failed_packet_counterexample :
    run failingEnv UpdateData.new [Op.addBlock (blockOfSize 101)] = some largeBlockState ∧
    (BuildPacket.compress failingEnv (BuildPacket.buf failingEnv largeBlockState
      { m_buffer := blockOfSize 101, m_blockCount := 1 })).dst_size = 0 ∧
    BuildPacket failingEnv largeBlockState 0 =
      some ({ m_opcode := 0, contents := [105, 0, 0, 0] ++ List.replicate 118 0 },
            [ZCall.deflateInit]) ∧
    ([105, 0, 0, 0] ++ List.replicate 118 0 : List Byte).length ≠ 0 := by
  have hlen := largeBlock_buf_length failingEnv
  refine ⟨run_largeBlockState failingEnv (by decide), ?_, ?_, by simp⟩
  · rw [failing_compress]
  · rw [BuildPacket_of_valid failingEnv largeBlockState 0
        { m_buffer := blockOfSize 101, m_blockCount := 1 } rfl,
      build_large failingEnv _ _ (by rw [hlen]; decide), failing_compress, hlen]
    rfl

/-- C9 (as amended): for every valid segment index whose payload P is longer
than 100 bytes, if `Compress` stores size 0, `BuildPacket` returns the packet
as it stands at that point: the opcode is the one of a default-constructed
packet and the content is the little-endian uint32 length of P followed by
the destination area as `Compress` left it, so the content size is 4 plus the
size of that area and never 0; when it is `deflateInit` that failed, the area
is the `compressBound` of the payload size (as a uint32) in zero bytes. -/
theorem BuildPacket_failed (env : Env) (s : UpdateData) (i : Nat) (seg : UpdatePacket)
    (hi : s.m_data[i]? = some seg)
    (hlarge : 100 < (BuildPacket.buf env s seg).length)
    (hfail : (BuildPacket.compress env (BuildPacket.buf env s seg)).dst_size = 0) :
    ∃ pkt calls, BuildPacket env s i = some (pkt, calls) ∧
      pkt.m_opcode = env.MSG_NULL_ACTION ∧
      pkt.contents = le32 (BuildPacket.buf env s seg).length
        ++ (BuildPacket.compress env (BuildPacket.buf env s seg)).dst ∧
      pkt.contents.length
        = 4 + (BuildPacket.compress env (BuildPacket.buf env s seg)).dst.length ∧
      pkt.contents.length ≠ 0 ∧
      ((env.zlib.deflateInit
          { next_in := [], avail_in := 0, next_out := [], avail_out := 0, total_out := 0 }
          env.CONFIG_UINT32_COMPRESSION).1 ≠ Z_OK →
        pkt.contents.length
          = 4 + env.zlib.compressBound (BuildPacket.buf env s seg).length % 2 ^ 32) := by
  rw [BuildPacket_of_valid env s i seg hi, build_large env s seg hlarge, if_pos hfail]
  refine ⟨_, _, rfl, rfl, rfl, ?_, ?_, ?_⟩
  · simp only [List.length_append, le32_length]
  · simp only [List.length_append, le32_length]
    omega
  · intro hinit
    simp only [List.length_append, le32_length, BuildPacket.compress,
      Compress_init_fail env _ _ _ _ hinit, List.length_replicate]

/-- C9 (witness): a block of 101 bytes and a failing `deflateInit`. -/
theorem BuildPacket_failed_witness :
    ∃ pkt calls, BuildPacket failingEnv largeBlockState 0 = some (pkt, calls) ∧
      pkt.m_opcode = failingEnv.MSG_NULL_ACTION ∧
      pkt.contents = le32 (BuildPacket.buf failingEnv largeBlockState
          { m_buffer := blockOfSize 101, m_blockCount := 1 }).length
        ++ (BuildPacket.compress failingEnv (BuildPacket.buf failingEnv largeBlockState
          { m_buffer := blockOfSize 101, m_blockCount := 1 })).dst ∧
      pkt.contents.length
        = 4 + (BuildPacket.compress failingEnv (BuildPacket.buf failingEnv largeBlockState
          { m_buffer := blockOfSize 101, m_blockCount := 1 })).dst.length ∧
      pkt.contents.length ≠ 0 ∧
      ((failingEnv.zlib.deflateInit
          { next_in := [], avail_in := 0, next_out := [], avail_out := 0, total_out := 0 }
          failingEnv.CONFIG_UINT32_COMPRESSION).1 ≠ Z_OK →
        pkt.contents.length
          = 4 + failingEnv.zlib.compressBound (BuildPacket.buf failingEnv largeBlockState
              { m_buffer := blockOfSize 101, m_blockCount := 1 }).length % 2 ^ 32) :=
  BuildPacket_failed failingEnv largeBlockState 0
    { m_buffer := blockOfSize 101, m_blockCount := 1 } rfl
    (by rw [largeBlock_buf_length]; decide)
    (by rw [failing_compress])

/-! ## SendData -/

theorem loop_eq_map (env : Env) (s : UpdateData) :
    ∀ idxs : List Nat, (∀ i ∈ idxs, i < s.m_data.length) →
      SendData.loop env s idxs =
        some (idxs.map (fun i =>
          (BuildPacket.build env s (s.m_data.getD i { m_buffer := [], m_blockCount := 0 })).1)) := by
  intro idxs
  induction idxs with
  | nil => intro _; rfl
  | cons i rest ih =>
    intro h
    have hi : i < s.m_data.length := h i (by simp)
    have hget : s.m_data[i]? = some (s.m_data.getD i { m_buffer := [], m_blockCount := 0 }) := by
      rw [List.getD_eq_getElem?_getD, List.getElem?_eq_getElem hi]
      rfl
    simp only [SendData.loop, BuildPacket_of_valid env s i _ hget,
      ih (fun j hj => h j (by simp [hj])), List.map_cons]

theorem SendData_of_hasData (env : Env) (s : UpdateData) (hd : HasData s = true) :
    SendData env s =
      some ((List.range s.m_data.length).map (fun i =>
          (BuildPacket.build env s (s.m_data.getD i { m_buffer := [], m_blockCount := 0 })).1)
        ++ s.m_afterCreatePacket) := by
  unfold SendData
  simp only [hd, Bool.not_true, Bool.false_eq_true, if_false, GetPacketCount]
  rw [loop_eq_map env s (List.range s.m_data.length) (fun i hi => List.mem_range.mp hi)]

/-- C10 (counterexample): one block of 101 bytes is appended to a fresh batch
and `deflateInit` fails, so `Compress` stores size 0; `SendData` nevertheless
hands the packet of that segment to the session: the one packet sent has the
opcode of a default-constructed packet and 122 bytes of content. -/
theorem SendData_failed_counterexample :
    run failingEnv UpdateData.new [Op.addBlock (blockOfSize 101)] = some largeBlockState ∧
    (BuildPacket.compress failingEnv (BuildPacket.buf failingEnv largeBlockState
      { m_buffer := blockOfSize 101, m_blockCount := 1 })).dst_size = 0 ∧
    SendData failingEnv largeBlockState =
      some [{ m_opcode := 0, contents := [105, 0, 0, 0] ++ List.replicate 118 0 }] := by
  have hlen := largeBlock_buf_length failingEnv
  have hd : HasData largeBlockState = true := by
    simp [HasData, largeBlockState, ByteBuffer.size, blockOfSize_length]
  refine ⟨run_largeBlockState failingEnv (by decide), by rw [failing_compress], ?_⟩
  rw [SendData_of_hasData failingEnv largeBlockState hd]
  have hb : BuildPacket.build failingEnv largeBlockState
      { m_buffer := blockOfSize 101, m_blockCount := 1 } =
      ({ m_opcode := 0, contents := [105, 0, 0, 0] ++ List.replicate 118 0 },
        [ZCall.deflateInit]) := by
    rw [build_large failingEnv _ _ (by rw [hlen]; decide), failing_compress, hlen]
    rfl
  have hr : List.range largeBlockState.m_data.length = [0] := rfl
  rw [hr]
  simp only [List.map_cons, List.map_nil]
  have hg : largeBlockState.m_data.getD 0 { m_buffer := [], m_blockCount := 0 }
      = { m_buffer := blockOfSize 101, m_blockCount := 1 } := rfl
  rw [hg, hb]
  rfl

/-- C10 (as amended): for every batch that holds data and every valid segment
index i whose payload P is longer than 100 bytes and for whose packet
`Compress` stores size 0, `SendData` completes and the packet it hands to the
session at position i is the packet `BuildPacket(i)` returned: the opcode of
a default-constructed packet with the uint32 length of P and the destination
area as content. No result of `BuildPacket` is checked before it is sent. -/
theorem SendData_passes_failed_packet (env : Env) (s : UpdateData) (i : Nat)
    (seg : UpdatePacket) (hd : HasData s = true) (hi : s.m_data[i]? = some seg)
    (hlarge : 100 < (BuildPacket.buf env s seg).length)
    (hfail : (BuildPacket.compress env (BuildPacket.buf env s seg)).dst_size = 0) :
    ∃ sent pkt calls, SendData env s = some sent ∧
      BuildPacket env s i = some (pkt, calls) ∧
      sent[i]? = some pkt ∧
      pkt.m_opcode = env.MSG_NULL_ACTION ∧
      pkt.contents = le32 (BuildPacket.buf env s seg).length
        ++ (BuildPacket.compress env (BuildPacket.buf env s seg)).dst := by
  have hlt : i < s.m_data.length := by
    rcases Nat.lt_or_ge i s.m_data.length with h | h
    · exact h
    · rw [List.getElem?_eq_none h] at hi
      simp at hi
  have hget : s.m_data.getD i { m_buffer := [], m_blockCount := 0 } = seg := by
    rw [List.getD_eq_getElem?_getD, hi]
    rfl
  refine ⟨_, { m_opcode := env.MSG_NULL_ACTION,
                contents := le32 (BuildPacket.buf env s seg).length
                  ++ (BuildPacket.compress env (BuildPacket.buf env s seg)).dst },
    (BuildPacket.compress env (BuildPacket.buf env s seg)).calls,
    SendData_of_hasData env s hd, ?_, ?_, rfl, rfl⟩
  · rw [BuildPacket_of_valid env s i seg hi, build_large env s seg hlarge, if_pos hfail]
  · rw [List.getElem?_append_left (by simpa using hlt)]
    rw [List.getElem?_map, List.getElem?_range hlt]
    simp only [Option.map_some', hget]
    rw [build_large env s seg hlarge, if_pos hfail]

/-- C10 (witness): a block of 101 bytes and a failing `deflateInit`. -/
theorem SendData_passes_failed_packet_witness :
    ∃ sent pkt calls, SendData failingEnv largeBlockState = some sent ∧
      BuildPacket failingEnv largeBlockState 0 = some (pkt, calls) ∧
      sent[0]? = some pkt ∧
      pkt.m_opcode = failingEnv.MSG_NULL_ACTION ∧
      pkt.contents = le32 (BuildPacket.buf failingEnv largeBlockState
          { m_buffer := blockOfSize 101, m_blockCount := 1 }).length
        ++ (BuildPacket.compress failingEnv (BuildPacket.buf failingEnv largeBlockState
          { m_buffer := blockOfSize 101, m_blockCount := 1 })).dst :=
  SendData_passes_failed_packet failingEnv largeBlockState 0
    { m_buffer := blockOfSize 101, m_blockCount := 1 }
    (by simp [HasData, largeBlockState, ByteBuffer.size, blockOfSize_length]) rfl
    (by rw [largeBlock_buf_length]; decide)
    (by rw [failing_compress])

/-! ## The order of the packets sent -/

theorem map_range_getD {α β : Type} (f : α → β) (d : α) (l : List α) :
    (List.range l.length).map (fun i => f (l.getD i d)) = l.map f := by
  apply List.ext_getElem?
  intro i
  by_cases hi : i < l.length
  · rw [List.getElem?_map, List.getElem?_range hi, List.getElem?_map,
      List.getElem?_eq_getElem hi]
    simp only [Option.map_some', List.getD_eq_getElem?_getD, List.getElem?_eq_getElem hi,
      Option.getD_some]
  · have h1 : l.length ≤ i := Nat.le_of_not_lt hi
    rw [List.getElem?_eq_none (by simpa using h1), List.getElem?_eq_none (by simpa using h1)]

theorem SendData_of_noData (env : Env) (s : UpdateData) (hd : HasData s = false) :
    SendData env s = some [] := by
  unfold SendData
  simp [hd]

/-- C11: for every batch, if `HasData()` is false `SendData` hands no packet
to the session, whatever after-create packets are queued; if `HasData()` is
true the packets handed to `SendPacket` are exactly the packets
`BuildPacket(0)`, ..., `BuildPacket(GetPacketCount() - 1)` in increasing
segment order, followed by the after-create packets in the order
`AddAfterCreatePacket` appended them (each call appends at the end). -/
theorem SendData_order (env : Env) (s : UpdateData) :
    (HasData s = false → SendData env s = some []) ∧
    (HasData s = true →
      ∃ built : List (WorldPacket × List ZCall),
        built.length = GetPacketCount s ∧
        (∀ i, i < GetPacketCount s → BuildPacket env s i = built[i]?) ∧
        SendData env s = some (built.map (fun r => r.1) ++ s.m_afterCreatePacket)) ∧
    (∀ p : WorldPacket,
      (AddAfterCreatePacket s p).m_afterCreatePacket = s.m_afterCreatePacket ++ [p] ∧
      (AddAfterCreatePacket s p).m_data = s.m_data ∧
      (AddAfterCreatePacket s p).m_outOfRangeGUIDs = s.m_outOfRangeGUIDs) := by
  refine ⟨SendData_of_noData env s, ?_, fun p => ⟨rfl, rfl, rfl⟩⟩
  intro hd
  refine ⟨s.m_data.map (BuildPacket.build env s), by simp [GetPacketCount], ?_, ?_⟩
  · intro i hi
    have hi1 : i < s.m_data.length := hi
    rw [BuildPacket_of_valid env s i s.m_data[i] (List.getElem?_eq_getElem hi1),
      List.getElem?_map, List.getElem?_eq_getElem hi1]
    rfl
  · rw [SendData_of_hasData env s hd, List.map_map]
    congr 2
    exact map_range_getD (fun seg => (BuildPacket.build env s seg).1) _ s.m_data

/-- C11 (witness): the two-segment state with one after-create packet queued;
it holds data, and an empty batch with a queued packet sends nothing. -/
theorem SendData_order_witness :
    (∃ built : List (WorldPacket × List ZCall),
      built.length = GetPacketCount (AddAfterCreatePacket splitState ⟨1, [9]⟩) ∧
      (∀ i, i < GetPacketCount (AddAfterCreatePacket splitState ⟨1, [9]⟩) →
        BuildPacket sampleEnv (AddAfterCreatePacket splitState ⟨1, [9]⟩) i = built[i]?) ∧
      SendData sampleEnv (AddAfterCreatePacket splitState ⟨1, [9]⟩)
        = some (built.map (fun r => r.1)
            ++ (AddAfterCreatePacket splitState ⟨1, [9]⟩).m_afterCreatePacket)) ∧
    SendData sampleEnv (AddAfterCreatePacket UpdateData.new ⟨1, [9]⟩) = some [] :=
  ⟨(SendData_order sampleEnv (AddAfterCreatePacket splitState ⟨1, [9]⟩)).2.1
      (by simp [HasData, AddAfterCreatePacket, splitState]),
   (SendData_order sampleEnv (AddAfterCreatePacket UpdateData.new ⟨1, [9]⟩)).1 (by decide)⟩

/-! ## The out-of-range collection is a set -/

theorem insert_of_mem (g : ObjectGuid) (set : GuidSet)
    (hs : set.Pairwise (fun a b => a < b)) (hg : g ∈ set) : GuidSet.insert g set = set := by
  induction set with
  | nil => simp at hg
  | cons y ys ih =>
    rw [List.pairwise_cons] at hs
    unfold GuidSet.insert
    split
    · rename_i hlt
      rcases List.mem_cons.mp hg with heq | hmem
      · exact absurd hlt (by rw [heq]; exact Nat.lt_irrefl y)
      · exact absurd (Nat.lt_trans hlt (hs.1 g hmem)) (Nat.lt_irrefl g)
    · split
      · rfl
      · rename_i hnlt hne
        rcases List.mem_cons.mp hg with heq | hmem
        · exact absurd heq hne
        · rw [ih hs.2 hmem]

theorem mem_insertAll (guids : List ObjectGuid) (set : GuidSet) (x : ObjectGuid) :
    x ∈ GuidSet.insertAll guids set ↔ x ∈ guids ∨ x ∈ set := by
  unfold GuidSet.insertAll
  induction guids generalizing set with
  | nil => simp
  | cons g gs ih =>
    simp only [List.foldl_cons, ih, mem_insert, List.mem_cons]
    tauto

theorem reachable_sorted (env : Env) (s : UpdateData) (hr : Reachable env s) :
    s.m_outOfRangeGUIDs.Pairwise (fun a b => a < b) := by
  obtain ⟨ops, h⟩ := hr
  exact run_preserves env (fun s => s.m_outOfRangeGUIDs.Pairwise (fun a b => a < b))
    (step_sorted env) ops UpdateData.new s List.Pairwise.nil h

theorem length_insert_of_not_mem (g : ObjectGuid) (set : GuidSet) (hg : g ∉ set) :
    (GuidSet.insert g set).length = set.length + 1 := by
  induction set with
  | nil => rfl
  | cons y ys ih =>
    unfold GuidSet.insert
    split
    · rfl
    · split
      · rename_i _ heq
        exact absurd (by simp [heq]) hg
      · simp only [List.length_cons, Nat.add_right_cancel_iff]
        exact ih (fun hmem => hg (List.mem_cons_of_mem y hmem))

/-- C12: the out-of-range collection is a set. In every reachable state:
adding with `AddOutOfRangeGUID` an identifier that is already present leaves
the state, hence the set and its size, unchanged, and adding one that is
absent makes the set one larger; after a single insertion the set holds
exactly the old identifiers and the new one, without duplicates; after a bulk
insertion it holds exactly the union of the old set with the inserted
identifiers, without duplicates, so its size is the number of distinct
identifiers of the two together. Starting from the empty set of a fresh
batch, adding the same identifier twice, singly or inside a bulk set, gives a
set of size 1. -/
theorem outOfRange_is_set (env : Env) (s : UpdateData) (hr : Reachable env s) :
    (∀ g : ObjectGuid, g ∈ s.m_outOfRangeGUIDs →
      AddOutOfRangeGUID s g = s ∧
      (AddOutOfRangeGUID s g).m_outOfRangeGUIDs.length = s.m_outOfRangeGUIDs.length) ∧
    (∀ g : ObjectGuid, g ∉ s.m_outOfRangeGUIDs →
      (AddOutOfRangeGUID s g).m_outOfRangeGUIDs.length = s.m_outOfRangeGUIDs.length + 1) ∧
    (∀ g x : ObjectGuid,
      x ∈ (AddOutOfRangeGUID s g).m_outOfRangeGUIDs ↔ x = g ∨ x ∈ s.m_outOfRangeGUIDs) ∧
    (∀ g : ObjectGuid, (AddOutOfRangeGUID s g).m_outOfRangeGUIDs.Nodup) ∧
    (∀ (S : List ObjectGuid) (x : ObjectGuid),
      x ∈ (AddOutOfRangeGUIDs s S).m_outOfRangeGUIDs ↔ x ∈ s.m_outOfRangeGUIDs ∨ x ∈ S) ∧
    (∀ S : List ObjectGuid, (AddOutOfRangeGUIDs s S).m_outOfRangeGUIDs.Nodup) ∧
    (∀ S : List ObjectGuid,
      (AddOutOfRangeGUIDs s S).m_outOfRangeGUIDs.length
        = (s.m_outOfRangeGUIDs.toFinset ∪ S.toFinset).card) ∧
    (∀ h : ObjectGuid,
      (AddOutOfRangeGUID (AddOutOfRangeGUID UpdateData.new h) h).m_outOfRangeGUIDs.length = 1 ∧
      (AddOutOfRangeGUIDs (AddOutOfRangeGUID UpdateData.new h) [h]).m_outOfRangeGUIDs.length = 1 ∧
      (AddOutOfRangeGUID (AddOutOfRangeGUIDs UpdateData.new [h]) h).m_outOfRangeGUIDs.length = 1 ∧
      (AddOutOfRangeGUIDs (AddOutOfRangeGUIDs UpdateData.new [h]) [h]).m_outOfRangeGUIDs.length
        = 1 ∧
      (AddOutOfRangeGUIDs UpdateData.new [h, h]).m_outOfRangeGUIDs.length = 1) := by
  have hs := reachable_sorted env s hr
  have hbulk : ∀ (S : List ObjectGuid) (x : ObjectGuid),
      x ∈ (AddOutOfRangeGUIDs s S).m_outOfRangeGUIDs ↔ x ∈ s.m_outOfRangeGUIDs ∨ x ∈ S := by
    intro S x
    simp only [AddOutOfRangeGUIDs, mem_insertAll]
    tauto
  have hnodup : ∀ S : List ObjectGuid, (AddOutOfRangeGUIDs s S).m_outOfRangeGUIDs.Nodup :=
    fun S => (insertAll_sorted S _ hs).imp (fun hab => Nat.ne_of_lt hab)
  refine ⟨?_, ?_, ?_, ?_, hbulk, hnodup, ?_, ?_⟩
  · intro g hg
    have hsame : AddOutOfRangeGUID s g = s := by
      unfold AddOutOfRangeGUID
      rw [insert_of_mem g _ hs hg]
    exact ⟨hsame, by rw [hsame]⟩
  · intro g hg
    exact length_insert_of_not_mem g _ hg
  · intro g x
    exact mem_insert g x _
  · intro g
    exact (insert_sorted g _ hs).imp (fun hab => Nat.ne_of_lt hab)
  · intro S
    rw [← List.toFinset_card_of_nodup (hnodup S)]
    congr 1
    ext x
    simp only [List.mem_toFinset, Finset.mem_union]
    exact hbulk S x
  · intro h
    simp [AddOutOfRangeGUID, AddOutOfRangeGUIDs, UpdateData.new, GuidSet.insert,
      GuidSet.insertAll]

/-- C12 (witness): the two-segment state, whose set is 7; adding 7 again
leaves it unchanged, and the bulk insertion of 7, 3, 3 gives the set 3, 7. -/
theorem outOfRange_is_set_witness :
    (AddOutOfRangeGUID splitState 7 = splitState ∧
      (AddOutOfRangeGUID splitState 7).m_outOfRangeGUIDs.length
        = splitState.m_outOfRangeGUIDs.length) ∧
    (AddOutOfRangeGUID splitState 3).m_outOfRangeGUIDs.length
      = splitState.m_outOfRangeGUIDs.length + 1 ∧
    (AddOutOfRangeGUIDs splitState [7, 3, 3]).m_outOfRangeGUIDs.Nodup ∧
    (AddOutOfRangeGUIDs splitState [7, 3, 3]).m_outOfRangeGUIDs.length
      = (splitState.m_outOfRangeGUIDs.toFinset ∪ [7, 3, 3].toFinset).card ∧
    (AddOutOfRangeGUIDs splitState [7, 3, 3]).m_outOfRangeGUIDs = [3, 7] :=
  ⟨(outOfRange_is_set sampleEnv splitState ⟨_, run_splitState⟩).1 7 (by decide),
   (outOfRange_is_set sampleEnv splitState ⟨_, run_splitState⟩).2.1 3 (by decide),
   (outOfRange_is_set sampleEnv splitState ⟨_, run_splitState⟩).2.2.2.2.2.1 [7, 3, 3],
   (outOfRange_is_set sampleEnv splitState ⟨_, run_splitState⟩).2.2.2.2.2.2.1 [7, 3, 3],
   by decide⟩

/-! ## Clear -/

theorem AddUpdateBlock_Clear (env : Env) (s : UpdateData) (b : ByteBuffer) :
    AddUpdateBlock env (Clear s) b = none := by
  simp [AddUpdateBlock, Clear]

/-- C13: three identifiers are added to a fresh batch and `Clear()` is
called. The out-of-range set then has size 0, but `m_data` is empty while
`m_currentIndex` is still 0, so `AddUpdateBlock` of the block 1, 2, 3 reads
`m_data[0]` outside the vector: no state results, instead of the single
segment holding the block. -/
theorem AddUpdateBlock_after_Clear_fails :
    run sampleEnv UpdateData.new [Op.addGuid 1, Op.addGuid 2, Op.addGuid 3, Op.clear]
      = some { m_outOfRangeGUIDs := [], m_data := [], m_currentIndex := 0,
               m_afterCreatePacket := [] } ∧
    AddUpdateBlock sampleEnv
      { m_outOfRangeGUIDs := [], m_data := [], m_currentIndex := 0, m_afterCreatePacket := [] }
      [1, 2, 3] = none ∧
    run sampleEnv UpdateData.new
      [Op.addGuid 1, Op.addGuid 2, Op.addGuid 3, Op.clear, Op.addBlock [1, 2, 3]] = none ∧
    AddUpdateBlock sampleEnv (Clear UpdateData.new) [1, 2, 3] = none := by
  refine ⟨by decide, by decide, by decide, by decide⟩

/-- C14: `HasData()` is false on a freshly constructed `UpdateData` and false
directly after `Clear()` on every state; the query looks only at the
segments that exist and at the set, and `SendData` then hands nothing to the
session. -/
theorem HasData_false_when_empty (env : Env) (s : UpdateData) :
    HasData UpdateData.new = false ∧
    HasData (Clear s) = false ∧
    SendData env UpdateData.new = some [] ∧
    SendData env (Clear s) = some [] := by
  have h1 : HasData UpdateData.new = false := by decide
  have h2 : HasData (Clear s) = false := by simp [HasData, Clear]
  exact ⟨h1, h2, SendData_of_noData env _ h1, SendData_of_noData env _ h2⟩

/-! ## Compress -/

theorem Compress_eq (env : Env) (dst : List Byte) (n : Nat) (src : List Byte) (m : Nat) :
    Compress env dst n src m =
      if (Compress.initResult env).1 ≠ Z_OK then
        { dst := dst, dst_size := 0, calls := [ZCall.deflateInit] }
      else if (Compress.noFlushResult env dst n src m).1 ≠ Z_OK then
        { dst := (Compress.noFlushResult env dst n src m).2.next_out, dst_size := 0,
          calls := [ZCall.deflateInit, ZCall.deflateNoFlush] }
      else if (Compress.noFlushResult env dst n src m).2.avail_in ≠ 0 then
        { dst := (Compress.noFlushResult env dst n src m).2.next_out, dst_size := 0,
          calls := [ZCall.deflateInit, ZCall.deflateNoFlush] }
      else if (Compress.finishResult env dst n src m).1 ≠ Z_STREAM_END then
        { dst := (Compress.finishResult env dst n src m).2.next_out, dst_size := 0,
          calls := [ZCall.deflateInit, ZCall.deflateNoFlush, ZCall.deflateFinish] }
      else if (Compress.endResult env dst n src m).1 ≠ Z_OK then
        { dst := (Compress.endResult env dst n src m).2.next_out, dst_size := 0,
          calls := [ZCall.deflateInit, ZCall.deflateNoFlush, ZCall.deflateFinish,
            ZCall.deflateEnd] }
      else
        { dst := (Compress.endResult env dst n src m).2.next_out,
          dst_size := (Compress.endResult env dst n src m).2.total_out % 2 ^ 32,
          calls := [ZCall.deflateInit, ZCall.deflateNoFlush, ZCall.deflateFinish,
            ZCall.deflateEnd] } := by
  rfl

/-- C15: with the zlib calls as arbitrary steps, `Compress` stores size 0 as
soon as a stage does not succeed, and no later stage runs: `deflateInit` not
`Z_OK` (only `deflateInit` was called); `deflate(Z_NO_FLUSH)` not `Z_OK`, or
`avail_in` not 0 afterwards (no `deflate(Z_FINISH)`, no `deflateEnd`);
`deflate(Z_FINISH)` not `Z_STREAM_END` (no `deflateEnd`); `deflateEnd` not
`Z_OK`. When every stage succeeds all four calls were made and the size
stored is the stream's `total_out` (as a uint32). -/
theorem Compress_result (env : Env) (dst : List Byte) (n : Nat) (src : List Byte) (m : Nat) :
    ((Compress.initResult env).1 ≠ Z_OK →
      (Compress env dst n src m).dst_size = 0 ∧
      (Compress env dst n src m).calls = [ZCall.deflateInit]) ∧
    ((Compress.initResult env).1 = Z_OK →
      (Compress.noFlushResult env dst n src m).1 ≠ Z_OK →
      (Compress env dst n src m).dst_size = 0 ∧
      (Compress env dst n src m).calls = [ZCall.deflateInit, ZCall.deflateNoFlush]) ∧
    ((Compress.initResult env).1 = Z_OK →
      (Compress.noFlushResult env dst n src m).1 = Z_OK →
      (Compress.noFlushResult env dst n src m).2.avail_in ≠ 0 →
      (Compress env dst n src m).dst_size = 0 ∧
      (Compress env dst n src m).calls = [ZCall.deflateInit, ZCall.deflateNoFlush]) ∧
    ((Compress.initResult env).1 = Z_OK →
      (Compress.noFlushResult env dst n src m).1 = Z_OK →
      (Compress.noFlushResult env dst n src m).2.avail_in = 0 →
      (Compress.finishResult env dst n src m).1 ≠ Z_STREAM_END →
      (Compress env dst n src m).dst_size = 0 ∧
      (Compress env dst n src m).calls
        = [ZCall.deflateInit, ZCall.deflateNoFlush, ZCall.deflateFinish]) ∧
    ((Compress.initResult env).1 = Z_OK →
      (Compress.noFlushResult env dst n src m).1 = Z_OK →
      (Compress.noFlushResult env dst n src m).2.avail_in = 0 →
      (Compress.finishResult env dst n src m).1 = Z_STREAM_END →
      (Compress.endResult env dst n src m).1 ≠ Z_OK →
      (Compress env dst n src m).dst_size = 0 ∧
      (Compress env dst n src m).calls
        = [ZCall.deflateInit, ZCall.deflateNoFlush, ZCall.deflateFinish, ZCall.deflateEnd]) ∧
    ((Compress.initResult env).1 = Z_OK →
      (Compress.noFlushResult env dst n src m).1 = Z_OK →
      (Compress.noFlushResult env dst n src m).2.avail_in = 0 →
      (Compress.finishResult env dst n src m).1 = Z_STREAM_END →
      (Compress.endResult env dst n src m).1 = Z_OK →
      (Compress env dst n src m).dst_size
        = (Compress.endResult env dst n src m).2.total_out % 2 ^ 32 ∧
      ((Compress.endResult env dst n src m).2.total_out < 2 ^ 32 →
        (Compress env dst n src m).dst_size = (Compress.endResult env dst n src m).2.total_out) ∧
      (Compress env dst n src m).calls
        = [ZCall.deflateInit, ZCall.deflateNoFlush, ZCall.deflateFinish, ZCall.deflateEnd]) := by
  rw [Compress_eq]
  refine ⟨?_, ?_, ?_, ?_, ?_, ?_⟩
  · intro h1
    rw [if_pos h1]
    exact ⟨rfl, rfl⟩
  · intro h1 h2
    rw [if_neg (not_not.mpr h1), if_pos h2]
    exact ⟨rfl, rfl⟩
  · intro h1 h2 h3
    rw [if_neg (not_not.mpr h1), if_neg (not_not.mpr h2), if_pos h3]
    exact ⟨rfl, rfl⟩
  · intro h1 h2 h3 h4
    rw [if_neg (not_not.mpr h1), if_neg (not_not.mpr h2), if_neg (not_not.mpr h3), if_pos h4]
    exact ⟨rfl, rfl⟩
  · intro h1 h2 h3 h4 h5
    rw [if_neg (not_not.mpr h1), if_neg (not_not.mpr h2), if_neg (not_not.mpr h3),
      if_neg (not_not.mpr h4), if_pos h5]
    exact ⟨rfl, rfl⟩
  · intro h1 h2 h3 h4 h5
    rw [if_neg (not_not.mpr h1), if_neg (not_not.mpr h2), if_neg (not_not.mpr h3),
      if_neg (not_not.mpr h4), if_neg (not_not.mpr h5)]
    exact ⟨rfl, fun hlt => Nat.mod_eq_of_lt hlt, rfl⟩

/-- C15 (witness): a failing `deflateInit` gives size 0 after one call; the
storing stand-in succeeds at every stage and gives `total_out`, here 2. -/
theorem Compress_result_witness :
    ((Compress failingEnv [0, 0, 0, 0] 4 [1, 2] 2).dst_size = 0 ∧
      (Compress failingEnv [0, 0, 0, 0] 4 [1, 2] 2).calls = [ZCall.deflateInit]) ∧
    ((Compress sampleEnv [0, 0, 0, 0] 4 [1, 2] 2).dst_size
        = (Compress.endResult sampleEnv [0, 0, 0, 0] 4 [1, 2] 2).2.total_out % 2 ^ 32 ∧
      ((Compress.endResult sampleEnv [0, 0, 0, 0] 4 [1, 2] 2).2.total_out < 2 ^ 32 →
        (Compress sampleEnv [0, 0, 0, 0] 4 [1, 2] 2).dst_size
          = (Compress.endResult sampleEnv [0, 0, 0, 0] 4 [1, 2] 2).2.total_out) ∧
      (Compress sampleEnv [0, 0, 0, 0] 4 [1, 2] 2).calls
        = [ZCall.deflateInit, ZCall.deflateNoFlush, ZCall.deflateFinish, ZCall.deflateEnd]) :=
  ⟨(Compress_result failingEnv [0, 0, 0, 0] 4 [1, 2] 2).1 (by decide),
   (Compress_result sampleEnv [0, 0, 0, 0] 4 [1, 2] 2).2.2.2.2.2
      (by decide) (by decide) (by decide) (by decide) (by decide)⟩

theorem Compress_failure_without_deflateEnd (env : Env) (dst : List Byte) (n : Nat)
    (src : List Byte) (m : Nat) (hinit : (Compress.initResult env).1 = Z_OK)
    (hfail : (Compress.noFlushResult env dst n src m).1 ≠ Z_OK ∨
      (Compress.noFlushResult env dst n src m).2.avail_in ≠ 0 ∨
      (Compress.finishResult env dst n src m).1 ≠ Z_STREAM_END) :
    ZCall.deflateEnd ∉ (Compress env dst n src m).calls := by
  rw [Compress_eq, if_neg (not_not.mpr hinit)]
  split
  · simp
  · split
    · simp
    · split
      · simp
      · rename_i h2 h3 h4
        rcases hfail with h | h | h
        · exact absurd h h2
        · exact absurd h h3
        · exact absurd h h4

/-- C16: `deflateInit` succeeds in all three runs, on a two-byte input.
When `deflate(Z_NO_FLUSH)` returns `Z_STREAM_ERROR`, when it leaves an input
byte unconsumed, and when `deflate(Z_FINISH)` returns `Z_OK` instead of
`Z_STREAM_END`, `Compress` returns with size 0 after the calls listed, among
which there is no `deflateEnd`; only the run in which every stage succeeds
calls `deflateEnd`, once. -/
theorem Compress_skips_deflateEnd :
    (Compress.initResult (brokenEnv 1)).1 = Z_OK ∧
    (Compress (brokenEnv 1) [0, 0, 0, 0] 4 [1, 2] 2).calls
      = [ZCall.deflateInit, ZCall.deflateNoFlush] ∧
    (Compress (brokenEnv 1) [0, 0, 0, 0] 4 [1, 2] 2).calls.count ZCall.deflateEnd = 0 ∧
    (Compress.initResult (brokenEnv 2)).1 = Z_OK ∧
    (Compress (brokenEnv 2) [0, 0, 0, 0] 4 [1, 2] 2).calls
      = [ZCall.deflateInit, ZCall.deflateNoFlush] ∧
    (Compress (brokenEnv 2) [0, 0, 0, 0] 4 [1, 2] 2).calls.count ZCall.deflateEnd = 0 ∧
    (Compress.initResult (brokenEnv 3)).1 = Z_OK ∧
    (Compress (brokenEnv 3) [0, 0, 0, 0] 4 [1, 2] 2).calls
      = [ZCall.deflateInit, ZCall.deflateNoFlush, ZCall.deflateFinish] ∧
    (Compress (brokenEnv 3) [0, 0, 0, 0] 4 [1, 2] 2).calls.count ZCall.deflateEnd = 0 ∧
    (Compress sampleEnv [0, 0, 0, 0] 4 [1, 2] 2).calls.count ZCall.deflateEnd = 1 := by
  refine ⟨by decide, by decide, by decide, by decide, by decide, by decide, by decide,
    by decide, by decide, by decide⟩

/-! ## What AddUpdateBlock leaves alone -/

theorem getElem?_append_singleton_ne {α : Type} (init : List α) (x y : α) (j : Nat)
    (hj : j ≠ init.length) : (init ++ [y])[j]? = (init ++ [x])[j]? := by
  rcases Nat.lt_or_gt_of_ne hj with hlt | hgt
  · rw [List.getElem?_append_left hlt, List.getElem?_append_left hlt]
  · rw [List.getElem?_eq_none (by simp; omega), List.getElem?_eq_none (by simp; omega)]

theorem getElem?_append_pair_lt {α : Type} (init : List α) (x y : α) (j : Nat)
    (hj : j < (init ++ [x]).length) : (init ++ [x, y])[j]? = (init ++ [x])[j]? := by
  have h : init ++ [x, y] = (init ++ [x]) ++ [y] := by simp
  rw [h, List.getElem?_append_left hj]

/-- C17: in every reachable state with a valid current segment,
`AddUpdateBlock(b)` succeeds and leaves the out-of-range set and the
after-create queue unchanged; on the fit branch the current index and every
segment other than the current one are unchanged, on the split branch every
segment that existed before (the closed one included) is unchanged; in both
cases every segment below the resulting current index is unchanged. In every
state `AddOutOfRangeGUID` (single or bulk) and `AddAfterCreatePacket` change
neither the segments nor the current index. -/
theorem AddUpdateBlock_frame (env : Env) (s : UpdateData) (b : ByteBuffer)
    (hr : Reachable env s) (hv : s.m_currentIndex < s.m_data.length) :
    (∃ cur s1, s.m_data[s.m_currentIndex]? = some cur ∧ AddUpdateBlock env s b = some s1 ∧
      s1.m_outOfRangeGUIDs = s.m_outOfRangeGUIDs ∧
      s1.m_afterCreatePacket = s.m_afterCreatePacket ∧
      (128 + 9 * s.m_outOfRangeGUIDs.length + cur.m_buffer.length + b.length
          < env.MAX_NETCLIENT_PACKET_SIZE →
        s1.m_currentIndex = s.m_currentIndex ∧
        ∀ j, j ≠ s.m_currentIndex → s1.m_data[j]? = s.m_data[j]?) ∧
      (¬ 128 + 9 * s.m_outOfRangeGUIDs.length + cur.m_buffer.length + b.length
          < env.MAX_NETCLIENT_PACKET_SIZE →
        s1.m_currentIndex = s.m_currentIndex + 1 ∧
        ∀ j, j < s.m_data.length → s1.m_data[j]? = s.m_data[j]?) ∧
      (∀ j, j < s1.m_currentIndex → s1.m_data[j]? = s.m_data[j]?)) ∧
    (∀ g : ObjectGuid, (AddOutOfRangeGUID s g).m_data = s.m_data ∧
      (AddOutOfRangeGUID s g).m_currentIndex = s.m_currentIndex) ∧
    (∀ gs : List ObjectGuid, (AddOutOfRangeGUIDs s gs).m_data = s.m_data ∧
      (AddOutOfRangeGUIDs s gs).m_currentIndex = s.m_currentIndex) ∧
    (∀ p : WorldPacket, (AddAfterCreatePacket s p).m_data = s.m_data ∧
      (AddAfterCreatePacket s p).m_currentIndex = s.m_currentIndex) := by
  refine ⟨?_, fun g => ⟨rfl, rfl⟩, fun gs => ⟨rfl, rfl⟩, fun p => ⟨rfl, rfl⟩⟩
  have hlast : CurrentIsLast s := by
    rcases reachable_currentIsLast env s hr with hnil | h
    · rw [hnil] at hv; simp at hv
    · exact h
  obtain ⟨init, cur, hdata, hidx⟩ := exists_last_of_currentIsLast s hlast
  have hadd := AddUpdateBlock_of_last env s b init cur hdata hidx
  have hcur : s.m_data[s.m_currentIndex]? = some cur := by rw [hdata, hidx]; simp
  refine ⟨cur, ?_⟩
  by_cases hfit : 128 + 9 * s.m_outOfRangeGUIDs.length + cur.m_buffer.length + b.length
      < env.MAX_NETCLIENT_PACKET_SIZE
  · rw [if_pos hfit] at hadd
    refine ⟨_, hcur, hadd, rfl, rfl, ?_, fun h => absurd hfit h, ?_⟩
    · intro _
      refine ⟨rfl, ?_⟩
      intro j hj
      rw [hdata]
      exact getElem?_append_singleton_ne init cur _ j (by rw [← hidx]; exact hj)
    · intro j hj
      rw [hdata]
      have hj1 : j < init.length := by rw [← hidx]; exact hj
      exact getElem?_append_singleton_ne init cur _ j (Nat.ne_of_lt hj1)
  · rw [if_neg hfit] at hadd
    refine ⟨_, hcur, hadd, rfl, rfl, fun h => absurd h hfit, ?_, ?_⟩
    · intro _
      refine ⟨by simp [hidx], ?_⟩
      intro j hj
      rw [hdata] at hj ⊢
      exact getElem?_append_pair_lt init cur _ j hj
    · intro j hj
      rw [hdata]
      exact getElem?_append_pair_lt init cur _ j (by simpa using hj)

/-- C17 (witness): the block 1, 2, 3 appended to a fresh batch. -/
theorem AddUpdateBlock_frame_witness :
    (∃ cur s1, UpdateData.new.m_data[UpdateData.new.m_currentIndex]? = some cur ∧
      AddUpdateBlock sampleEnv UpdateData.new [1, 2, 3] = some s1 ∧
      s1.m_outOfRangeGUIDs = UpdateData.new.m_outOfRangeGUIDs ∧
      s1.m_afterCreatePacket = UpdateData.new.m_afterCreatePacket ∧
      (128 + 9 * UpdateData.new.m_outOfRangeGUIDs.length + cur.m_buffer.length
            + [1, 2, 3].length < sampleEnv.MAX_NETCLIENT_PACKET_SIZE →
        s1.m_currentIndex = UpdateData.new.m_currentIndex ∧
        ∀ j, j ≠ UpdateData.new.m_currentIndex → s1.m_data[j]? = UpdateData.new.m_data[j]?) ∧
      (¬ 128 + 9 * UpdateData.new.m_outOfRangeGUIDs.length + cur.m_buffer.length
            + [1, 2, 3].length < sampleEnv.MAX_NETCLIENT_PACKET_SIZE →
        s1.m_currentIndex = UpdateData.new.m_currentIndex + 1 ∧
        ∀ j, j < UpdateData.new.m_data.length → s1.m_data[j]? = UpdateData.new.m_data[j]?) ∧
      (∀ j, j < s1.m_currentIndex → s1.m_data[j]? = UpdateData.new.m_data[j]?)) ∧
    (∀ g : ObjectGuid, (AddOutOfRangeGUID UpdateData.new g).m_data = UpdateData.new.m_data ∧
      (AddOutOfRangeGUID UpdateData.new g).m_currentIndex = UpdateData.new.m_currentIndex) ∧
    (∀ gs : List ObjectGuid, (AddOutOfRangeGUIDs UpdateData.new gs).m_data = UpdateData.new.m_data ∧
      (AddOutOfRangeGUIDs UpdateData.new gs).m_currentIndex = UpdateData.new.m_currentIndex) ∧
    (∀ p : WorldPacket, (AddAfterCreatePacket UpdateData.new p).m_data = UpdateData.new.m_data ∧
      (AddAfterCreatePacket UpdateData.new p).m_currentIndex = UpdateData.new.m_currentIndex) :=
  AddUpdateBlock_frame sampleEnv UpdateData.new [1, 2, 3] ⟨[], rfl⟩ (by decide)

/-! ## The margin of the size estimate -/

theorem outOfRangeBlock_length_le_reserved (env : Env)
    (hpack : ∀ g, (env.WriteAsPacked g).length ≤ 9) (set : GuidSet) :
    (outOfRangeBlock env set).length ≤ if set.isEmpty then 0 else 1 + 4 + 9 * set.length := by
  unfold outOfRangeBlock
  have := length_flatMap_le env.WriteAsPacked hpack set
  split
  · simp
  · simp only [List.length_append, List.length_cons, List.length_nil, le32]
    omega

theorem buf_length_le_reserve (env : Env) (hpack : ∀ g, (env.WriteAsPacked g).length ≤ 9)
    (s : UpdateData) (seg : UpdatePacket) :
    (BuildPacket.buf env s seg).length ≤ BuildPacket.reserve s seg := by
  rw [buf_eq]
  have := outOfRangeBlock_length_le_reserved env hpack s.m_outOfRangeGUIDs
  simp only [List.length_append, le32_length, BuildPacket.reserve, ByteBuffer.wpos]
  omega

theorem AddUpdateBlock_fit (env : Env) (s : UpdateData) (b : ByteBuffer) (cur : UpdatePacket)
    (hcur : s.m_data[s.m_currentIndex]? = some cur)
    (hfit : 128 + 9 * s.m_outOfRangeGUIDs.length + cur.m_buffer.length + b.length
      < env.MAX_NETCLIENT_PACKET_SIZE) :
    AddUpdateBlock env s b =
      some { s with
        m_data := s.m_data.set s.m_currentIndex
          { m_buffer := cur.m_buffer ++ b, m_blockCount := cur.m_blockCount + 1 } } := by
  unfold AddUpdateBlock
  rw [hcur]
  simp only [ByteBuffer.size, ByteBuffer.append]
  rw [if_pos hfit]

/-- C18: if `AddUpdateBlock(b)` takes the append-to-current branch, that is
128 + 9n + (old buffer size) + (block size) is below the ceiling with n
out-of-range ids, and every packed identifier takes at most 9 bytes, then in
every later state in which that segment and the out-of-range set are as the
call left them, the payload `BuildPacket` assembles for the segment is
shorter than the ceiling minus 119 bytes and no longer than the capacity
4 + (5 + 9n if n > 0) + (buffer size) reserved for it. -/
theorem fit_branch_payload_bound (env : Env) (s : UpdateData) (b : ByteBuffer)
    (cur : UpdatePacket) (hpack : ∀ g, (env.WriteAsPacked g).length ≤ 9)
    (hcur : s.m_data[s.m_currentIndex]? = some cur)
    (hfit : 128 + 9 * s.m_outOfRangeGUIDs.length + cur.m_buffer.length + b.length
      < env.MAX_NETCLIENT_PACKET_SIZE) :
    ∃ s1 seg, AddUpdateBlock env s b = some s1 ∧
      seg = { m_buffer := cur.m_buffer ++ b, m_blockCount := cur.m_blockCount + 1 } ∧
      s1.m_data[s.m_currentIndex]? = some seg ∧
      s1.m_outOfRangeGUIDs = s.m_outOfRangeGUIDs ∧
      ∀ s2 : UpdateData, s2.m_outOfRangeGUIDs = s1.m_outOfRangeGUIDs →
        s2.m_data[s.m_currentIndex]? = some seg →
        ∃ P, BuildPacket.payload env s2 s.m_currentIndex = some P ∧
          P.length < env.MAX_NETCLIENT_PACKET_SIZE - 119 ∧
          P.length ≤ BuildPacket.reserve s2 seg ∧
          BuildPacket.reserve s2 seg =
            4 + (if 0 < s.m_outOfRangeGUIDs.length then 5 + 9 * s.m_outOfRangeGUIDs.length else 0)
              + seg.m_buffer.length := by
  have hlt : s.m_currentIndex < s.m_data.length := by
    rcases Nat.lt_or_ge s.m_currentIndex s.m_data.length with h | h
    · exact h
    · rw [List.getElem?_eq_none h] at hcur
      simp at hcur
  refine ⟨_, _, AddUpdateBlock_fit env s b cur hcur hfit, rfl, ?_, rfl, ?_⟩
  · simp [List.getElem?_set, hlt]
  · intro s2 hset hseg
    have hset2 : s2.m_outOfRangeGUIDs = s.m_outOfRangeGUIDs := hset
    refine ⟨_, payload_of_valid env s2 _ _ hseg, ?_, buf_length_le_reserve env hpack s2 _, ?_⟩
    · have hle := buf_length_le env hpack s2
        { m_buffer := cur.m_buffer ++ b, m_blockCount := cur.m_blockCount + 1 }
      rw [hset2] at hle
      simp only [List.length_append] at hle
      omega
    · simp only [BuildPacket.reserve, ByteBuffer.wpos, hset2]
      cases hs : s.m_outOfRangeGUIDs with
      | nil => simp
      | cons x xs => simp

/-- C18 (witness): the block 1, 2, 3 appended to a fresh batch. -/
theorem fit_branch_payload_bound_witness :
    ∃ s1 seg, AddUpdateBlock sampleEnv UpdateData.new [1, 2, 3] = some s1 ∧
      seg = { m_buffer := [] ++ [1, 2, 3], m_blockCount := 0 + 1 } ∧
      s1.m_data[UpdateData.new.m_currentIndex]? = some seg ∧
      s1.m_outOfRangeGUIDs = UpdateData.new.m_outOfRangeGUIDs ∧
      ∀ s2 : UpdateData, s2.m_outOfRangeGUIDs = s1.m_outOfRangeGUIDs →
        s2.m_data[UpdateData.new.m_currentIndex]? = some seg →
        ∃ P, BuildPacket.payload sampleEnv s2 UpdateData.new.m_currentIndex = some P ∧
          P.length < sampleEnv.MAX_NETCLIENT_PACKET_SIZE - 119 ∧
          P.length ≤ BuildPacket.reserve s2 seg ∧
          BuildPacket.reserve s2 seg =
            4 + (if 0 < UpdateData.new.m_outOfRangeGUIDs.length
                  then 5 + 9 * UpdateData.new.m_outOfRangeGUIDs.length else 0)
              + seg.m_buffer.length :=
  fit_branch_payload_bound sampleEnv UpdateData.new [1, 2, 3]
    { m_buffer := [], m_blockCount := 0 } packGuid_length_le rfl (by decide)

/-! ## Segments without a block -/

theorem step_laterSegmentsFilled (env : Env) (s : UpdateData) (op : Op)
    (hP : LaterSegmentsFilled s) (hop : op.isGuid = true ∨ op.isBlock = true) :
    ∃ s1, step env s op = some s1 ∧ LaterSegmentsFilled s1 := by
  obtain ⟨hlast, htail⟩ := hP
  cases op with
  | addGuid g => exact ⟨_, rfl, hlast, htail⟩
  | addGuids gs => exact ⟨_, rfl, hlast, htail⟩
  | addPacket p => simp [Op.isGuid, Op.isBlock] at hop
  | clear => simp [Op.isGuid, Op.isBlock] at hop
  | addBlock b =>
    obtain ⟨init, cur, hdata, hidx⟩ := exists_last_of_currentIsLast s hlast
    have hadd := AddUpdateBlock_of_last env s b init cur hdata hidx
    rw [hdata] at htail
    simp only [step]
    rw [hadd]
    split
    · refine ⟨_, rfl, by simp [CurrentIsLast, hidx], ?_⟩
      intro seg hseg
      cases init with
      | nil => simp at hseg
      | cons x xs =>
        simp only [List.cons_append, List.tail_cons, List.mem_append, List.mem_singleton] at hseg
        rcases hseg with hmem | rfl
        · exact htail seg (by simp [hmem])
        · simp
    · refine ⟨_, rfl, by simp [CurrentIsLast], ?_⟩
      intro seg hseg
      cases init with
      | nil =>
        simp only [List.nil_append, List.tail_cons, List.mem_singleton] at hseg
        simp [hseg]
      | cons x xs =>
        simp only [List.cons_append, List.tail_cons, List.mem_append, List.mem_cons,
          List.mem_singleton, List.not_mem_nil, or_false] at hseg
        rcases hseg with hmem | rfl | rfl
        · exact htail seg (by simp [hmem])
        · exact htail _ (by simp)
        · simp

theorem mem_tail_of_getElem? {α : Type} (l : List α) (i : Nat) (x : α) (hi : 0 < i)
    (h : l[i]? = some x) : x ∈ l.tail := by
  cases l with
  | nil => simp at h
  | cons y ys =>
    obtain ⟨k, rfl⟩ : ∃ k, i = k + 1 := ⟨i - 1, by omega⟩
    simp only [List.getElem?_cons_succ] at h
    exact List.getElem?_mem h

/-- C20 (counterexample): the after-create packet with opcode 1 is queued on
a fresh batch, the block 1, 2, 3 is appended and `Clear()` is called. The
state is not the freshly constructed one: the segment list is empty and the
packet is still queued; after identifier 7 is added, `SendData` sends the
packet queued before `Clear()`. On the two-segment state `Clear()` leaves the
current index at 1. -/
theorem Clear_counterexample :
    run sampleEnv UpdateData.new
      [Op.addPacket { m_opcode := 1, contents := [9] }, Op.addBlock [1, 2, 3], Op.clear]
      = some { m_outOfRangeGUIDs := [], m_data := [], m_currentIndex := 0,
               m_afterCreatePacket := [{ m_opcode := 1, contents := [9] }] } ∧
    ({ m_outOfRangeGUIDs := [], m_data := [], m_currentIndex := 0,
       m_afterCreatePacket := [{ m_opcode := 1, contents := [9] }] } : UpdateData)
      ≠ UpdateData.new ∧
    UpdateData.new.m_data = [{ m_buffer := [], m_blockCount := 0 }] ∧
    UpdateData.new.m_afterCreatePacket = [] ∧
    SendData sampleEnv (AddOutOfRangeGUID
      { m_outOfRangeGUIDs := [], m_data := [], m_currentIndex := 0,
        m_afterCreatePacket := [{ m_opcode := 1, contents := [9] }] } 7)
      = some [{ m_opcode := 1, contents := [9] }] ∧
    (Clear splitState).m_currentIndex = 1 := by
  refine ⟨by decide, by decide, rfl, rfl, by decide, rfl⟩

/-- C20 (as amended): for every batch state, after `Clear()` the out-of-range
set is empty and the batch holds no data (`HasData()` is false), while the
after-create packet queue is exactly as it was: the packets queued before
`Clear()` stay queued and are sent, in their order, at the end of a later
`SendData` on a batch that holds data again. -/
theorem Clear_effect (env : Env) (s : UpdateData) :
    (Clear s).m_outOfRangeGUIDs = [] ∧
    HasData (Clear s) = false ∧
    (Clear s).m_afterCreatePacket = s.m_afterCreatePacket ∧
    (∀ g : ObjectGuid, ∃ sent,
      HasData (AddOutOfRangeGUID (Clear s) g) = true ∧
      SendData env (AddOutOfRangeGUID (Clear s) g) = some (sent ++ s.m_afterCreatePacket)) := by
  refine ⟨rfl, by simp [HasData, Clear], rfl, ?_⟩
  intro g
  have hd : HasData (AddOutOfRangeGUID (Clear s) g) = true := by
    simp [HasData, AddOutOfRangeGUID, Clear, GuidSet.insert]
  exact ⟨_, hd, SendData_of_hasData env _ hd⟩

/-! ## The ceiling under any interleaving -/

theorem length_le_insert (g : ObjectGuid) (set : GuidSet) :
    set.length ≤ (GuidSet.insert g set).length := by
  induction set with
  | nil => simp [GuidSet.insert]
  | cons y ys ih =>
    unfold GuidSet.insert
    split
    · simp
    · split
      · simp
      · simpa using ih

theorem length_le_insertAll (guids : List ObjectGuid) (set : GuidSet) :
    set.length ≤ (GuidSet.insertAll guids set).length := by
  unfold GuidSet.insertAll
  induction guids generalizing set with
  | nil => simp
  | cons g gs ih => exact Nat.le_trans (length_le_insert g set) (ih _)

theorem zip_append_singleton {α β : Type} (init : List α) (tinit : List β) (x : α) (e : β)
    (h : tinit.length = init.length) :
    (init ++ [x]).zip (tinit ++ [e]) = init.zip tinit ++ [(x, e)] := by
  rw [List.zip_append h.symm]
  rfl

theorem zip_append_pair {α β : Type} (init : List α) (tinit : List β) (x y : α) (e f : β)
    (h : tinit.length = init.length) :
    (init ++ [x, y]).zip (tinit ++ [e, f]) = init.zip tinit ++ [(x, e), (y, f)] := by
  rw [List.zip_append h.symm]
  rfl

theorem fitGood_mono (env : Env) (n m : Nat) (hnm : n ≤ m) (p : UpdatePacket × Option Nat)
    (h : FitGood env n p) : FitGood env m p := by
  unfold FitGood at h ⊢
  cases hp : p.2 with
  | none => simpa [hp] using h
  | some k =>
    simp only [hp] at h ⊢
    exact ⟨Nat.le_trans h.1 hnm, h.2⟩

theorem fitTracked_grow (env : Env) (s : UpdateData) (t : List (Option Nat)) (set : GuidSet)
    (hle : s.m_outOfRangeGUIDs.length ≤ set.length) (h : FitTracked env s t) :
    FitTracked env { s with m_outOfRangeGUIDs := set } t := by
  obtain ⟨hlast, hlen, hgood, hhead⟩ := h
  exact ⟨hlast, hlen, fun p hp => fitGood_mono env _ _ hle p (hgood p hp), hhead⟩

theorem step_fitTracked (env : Env) (s : UpdateData) (t : List (Option Nat)) (op : Op)
    (hP : FitTracked env s t) (hop : op.isGuid = true ∨ op.isBlock = true) :
    ∃ s1, step env s op = some s1 ∧ FitTracked env s1 (trackStep env s t op) := by
  cases op with
  | addGuid g =>
    exact ⟨_, rfl, fitTracked_grow env s t _ (length_le_insert g _) hP⟩
  | addGuids gs =>
    exact ⟨_, rfl, fitTracked_grow env s t _ (length_le_insertAll gs _) hP⟩
  | addPacket p => simp [Op.isGuid, Op.isBlock] at hop
  | clear => simp [Op.isGuid, Op.isBlock] at hop
  | addBlock b =>
    obtain ⟨hlast, hlen, hgood, hhead⟩ := hP
    obtain ⟨init, cur, hdata, hidx⟩ := exists_last_of_currentIsLast s hlast
    have hadd := AddUpdateBlock_of_last env s b init cur hdata hidx
    obtain ⟨tinit, tcur, ht, htlen⟩ : ∃ tinit tcur, t = tinit ++ [tcur] ∧
        tinit.length = init.length := by
      rcases List.eq_nil_or_concat t with hnil | ⟨L, e, hc⟩
      · rw [hnil, hdata] at hlen; simp at hlen
      · refine ⟨L, e, by simpa using hc, ?_⟩
        rw [hc, hdata] at hlen
        simpa using hlen
    have hzip : s.m_data.zip t = init.zip tinit ++ [(cur, tcur)] := by
      rw [hdata, ht, zip_append_singleton init tinit cur tcur htlen]
    rw [hzip] at hgood hhead
    simp only [step, trackStep]
    rw [hadd]
    split
    · rename_i hfit
      have hset : t.set s.m_currentIndex (some s.m_outOfRangeGUIDs.length)
          = tinit ++ [some s.m_outOfRangeGUIDs.length] := by
        rw [ht, hidx, ← htlen]
        simp
      simp only [if_true, hset]
      refine ⟨_, rfl, by simp [CurrentIsLast, hidx], by simp [htlen], ?_, ?_⟩
      · intro p hp
        simp only [zip_append_singleton init tinit _ _ htlen, List.mem_append,
          List.mem_singleton] at hp
        rcases hp with hmem | rfl
        · exact hgood p (by simp [hmem])
        · simp only [FitGood, List.length_append]
          exact ⟨Nat.le_refl _, by omega⟩
      · intro seg hseg
        simp only [zip_append_singleton init tinit _ _ htlen] at hseg
        cases hzi : init.zip tinit with
        | nil => simp [hzi] at hseg
        | cons q qs =>
          rw [hzi] at hseg hhead
          exact hhead seg (by simpa using hseg)
    · have hne : ¬ init.length + 1 = s.m_currentIndex := by omega
      simp only [hne, if_false]
      have ht2 : t ++ [none] = tinit ++ [tcur, none] := by rw [ht]; simp
      rw [ht2]
      refine ⟨_, rfl, by simp [CurrentIsLast], by simp [htlen], ?_, ?_⟩
      · intro p hp
        simp only [zip_append_pair init tinit _ _ _ _ htlen, List.mem_append, List.mem_cons,
          List.mem_singleton, List.not_mem_nil, or_false] at hp
        rcases hp with hmem | rfl | rfl
        · exact hgood p (by simp [hmem])
        · exact hgood _ (by simp)
        · simp [FitGood]
      · intro seg hseg
        simp only [zip_append_pair init tinit _ _ _ _ htlen] at hseg
        cases hzi : init.zip tinit with
        | nil =>
          rw [hzi] at hseg hhead
          exact hhead seg (by simpa using hseg)
        | cons q qs =>
          rw [hzi] at hseg hhead
          exact hhead seg (by simpa using hseg)

theorem run_fitTracked (env : Env) :
    ∀ (ops : List Op) (s : UpdateData) (t : List (Option Nat)), FitTracked env s t →
      (∀ op ∈ ops, op.isGuid = true ∨ op.isBlock = true) →
      ∃ s1, run env s ops = some s1 ∧ FitTracked env s1 (trackRun env s t ops) := by
  intro ops
  induction ops with
  | nil => intro s t hP _; exact ⟨s, rfl, hP⟩
  | cons op rest ih =>
    intro s t hP hops
    obtain ⟨s1, hs1, hP1⟩ := step_fitTracked env s t op hP (hops op (by simp))
    obtain ⟨s2, hs2, hP2⟩ := ih s1 _ hP1 (fun o ho => hops o (by simp [ho]))
    refine ⟨s2, by simp [run, hs1, hs2], ?_⟩
    simp only [trackRun, hs1]
    exact hP2

theorem new_fitTracked (env : Env) : FitTracked env UpdateData.new [none] := by
  refine ⟨rfl, rfl, ?_, ?_⟩
  · intro p hp
    simp only [UpdateData.new, List.zip_cons_cons, List.zip_nil_right, List.mem_singleton] at hp
    subst hp
    simp [FitGood]
  · intro seg hseg
    simp only [UpdateData.new, List.zip_cons_cons, List.zip_nil_right, List.head?_cons,
      Option.some.injEq, Prod.mk.injEq] at hseg
    rw [← hseg.1]

/-- C2 (as amended): for every sequence of `AddUpdateBlock` and
`AddOutOfRangeGUID` calls on a freshly constructed `UpdateData`, in any
interleaving, with every packed identifier taking at most 9 bytes, the calls
all succeed and for every segment index i the payload `BuildPacket(i)`
assembles is at most `MAX_NETCLIENT_PACKET_SIZE` bytes long, unless (a) no
block was appended to segment i by the fit branch (it is the initial segment,
still without a block, or a later segment holding only the block that opened
it) and the size 4 + (5 + 9n if n > 0) + (buffer size) reserved for its
payload exceeds the ceiling, or (b) more than 13 identifiers were added to
the out-of-range set after the last block was appended to segment i. -/
theorem payload_within_ceiling (env : Env) (hpack : ∀ g, (env.WriteAsPacked g).length ≤ 9)
    (ops : List Op) (hops : ∀ op ∈ ops, op.isGuid = true ∨ op.isBlock = true) :
    ∃ s, run env UpdateData.new ops = some s ∧
      (lastFitCounts env ops).length = s.m_data.length ∧
      ∀ (i : Nat) (seg : UpdatePacket), s.m_data[i]? = some seg →
        (BuildPacket.buf env s seg).length ≤ env.MAX_NETCLIENT_PACKET_SIZE ∨
        ((lastFitCounts env ops)[i]? = some none ∧
          ((i = 0 ∧ seg.m_blockCount = 0) ∨ (0 < i ∧ seg.m_blockCount = 1)) ∧
          env.MAX_NETCLIENT_PACKET_SIZE < BuildPacket.reserve s seg) ∨
        (∃ k, (lastFitCounts env ops)[i]? = some (some k) ∧
          k + 13 < s.m_outOfRangeGUIDs.length) := by
  obtain ⟨s, hrun, _, hlen, hgood, hhead⟩ :=
    run_fitTracked env ops UpdateData.new [none] (new_fitTracked env) hops
  obtain ⟨s', hrun', _, hfilled⟩ :=
    run_total_preserves env LaterSegmentsFilled (fun op => op.isGuid = true ∨ op.isBlock = true)
      (step_laterSegmentsFilled env) ops UpdateData.new
      ⟨rfl, by simp [UpdateData.new]⟩ hops
  have hss : s' = s := by
    rw [hrun] at hrun'
    exact (Option.some.inj hrun').symm
  subst hss
  refine ⟨s', hrun, hlen, ?_⟩
  intro i seg hi
  have hilt : i < s'.m_data.length := by
    rcases Nat.lt_or_ge i s'.m_data.length with h | h
    · exact h
    · rw [List.getElem?_eq_none h] at hi
      simp at hi
  have hit : i < (trackRun env UpdateData.new [none] ops).length := by rw [hlen]; exact hilt
  have hte : (lastFitCounts env ops)[i]? = some (trackRun env UpdateData.new [none] ops)[i] :=
    List.getElem?_eq_getElem hit
  have hz : (s'.m_data.zip (trackRun env UpdateData.new [none] ops))[i]?
      = some (seg, (trackRun env UpdateData.new [none] ops)[i]) :=
    List.getElem?_zip_eq_some.mpr ⟨hi, List.getElem?_eq_getElem hit⟩
  have hg := hgood _ (List.getElem?_mem hz)
  have hle := buf_length_le env hpack s' seg
  have hres := buf_length_le_reserve env hpack s' seg
  cases he : (trackRun env UpdateData.new [none] ops)[i] with
  | none =>
    rw [he] at hz hte
    simp only [FitGood, he] at hg
    by_cases hmax : (BuildPacket.buf env s' seg).length ≤ env.MAX_NETCLIENT_PACKET_SIZE
    · exact Or.inl hmax
    · refine Or.inr (Or.inl ⟨hte, ?_, by omega⟩)
      rcases Nat.eq_zero_or_pos i with h0 | hpos
      · left
        subst h0
        refine ⟨rfl, hhead seg ?_⟩
        rw [List.head?_eq_getElem?]
        exact hz
      · right
        have h1 := hfilled seg (mem_tail_of_getElem? _ i seg hpos hi)
        exact ⟨hpos, by omega⟩
  | some k =>
    rw [he] at hte
    simp only [FitGood, he] at hg
    by_cases hlate : k + 13 < s'.m_outOfRangeGUIDs.length
    · exact Or.inr (Or.inr ⟨k, hte, hlate⟩)
    · left
      omega

/-- C2 (witness): identifier 7, the blocks 1, 2 and 3, then identifier 8: one
segment of two blocks, with one identifier added after its last block. -/
theorem payload_within_ceiling_witness :
    ∃ s, run sampleEnv UpdateData.new
        [Op.addGuid 7, Op.addBlock [1, 2], Op.addBlock [3], Op.addGuid 8] = some s ∧
      (lastFitCounts sampleEnv
        [Op.addGuid 7, Op.addBlock [1, 2], Op.addBlock [3], Op.addGuid 8]).length
        = s.m_data.length ∧
      ∀ (i : Nat) (seg : UpdatePacket), s.m_data[i]? = some seg →
        (BuildPacket.buf sampleEnv s seg).length ≤ sampleEnv.MAX_NETCLIENT_PACKET_SIZE ∨
        ((lastFitCounts sampleEnv
            [Op.addGuid 7, Op.addBlock [1, 2], Op.addBlock [3], Op.addGuid 8])[i]? = some none ∧
          ((i = 0 ∧ seg.m_blockCount = 0) ∨ (0 < i ∧ seg.m_blockCount = 1)) ∧
          sampleEnv.MAX_NETCLIENT_PACKET_SIZE < BuildPacket.reserve s seg) ∨
        (∃ k, (lastFitCounts sampleEnv
            [Op.addGuid 7, Op.addBlock [1, 2], Op.addBlock [3], Op.addGuid 8])[i]?
              = some (some k) ∧
          k + 13 < s.m_outOfRangeGUIDs.length) :=
  payload_within_ceiling sampleEnv packGuid_length_le
    [Op.addGuid 7, Op.addBlock [1, 2], Op.addBlock [3], Op.addGuid 8] (by decide)

/-- In the run of the witness the one segment was last appended to with one
identifier in the set. -/
theorem lastFitCounts_sample :
    lastFitCounts sampleEnv [Op.addGuid 7, Op.addBlock [1, 2], Op.addBlock [3], Op.addGuid 8]
      = [some 1] := by
  decide

theorem lastFitCounts_one_block_split (env : Env) (b : ByteBuffer)
    (h : ¬ 128 + b.length < env.MAX_NETCLIENT_PACKET_SIZE) :
    lastFitCounts env [Op.addBlock b] = [none, none] := by
  have hadd := AddUpdateBlock_of_last env UpdateData.new b [] { m_buffer := [], m_blockCount := 0 }
    rfl rfl
  have h1 : ¬ 128 + 9 * UpdateData.new.m_outOfRangeGUIDs.length
      + ({ m_buffer := [], m_blockCount := 0 } : UpdatePacket).m_buffer.length + b.length
      < env.MAX_NETCLIENT_PACKET_SIZE := by
    simpa [UpdateData.new] using h
  rw [if_neg h1] at hadd
  simp only [lastFitCounts, trackRun, step, trackStep, hadd]
  rfl

theorem lastFitCounts_two_blocks_then_guids (env : Env) (b1 b2 : ByteBuffer)
    (gs : List ObjectGuid)
    (h1 : 128 + b1.length < env.MAX_NETCLIENT_PACKET_SIZE)
    (h2 : 128 + (b1.length + b2.length) < env.MAX_NETCLIENT_PACKET_SIZE) :
    lastFitCounts env [Op.addBlock b1, Op.addBlock b2, Op.addGuids gs] = [some 0] := by
  have hadd1 := AddUpdateBlock_of_last env UpdateData.new b1 [] { m_buffer := [], m_blockCount := 0 }
    rfl rfl
  rw [if_pos (by simpa [UpdateData.new] using h1)] at hadd1
  have hadd2 := AddUpdateBlock_of_last env
    { UpdateData.new with m_data := [{ m_buffer := b1, m_blockCount := 1 }] } b2 []
    { m_buffer := b1, m_blockCount := 1 } rfl rfl
  rw [if_pos (by simpa [UpdateData.new, Nat.add_assoc] using h2)] at hadd2
  simp only [List.nil_append, UpdateData.new] at hadd1 hadd2
  simp only [lastFitCounts, trackRun, step, trackStep, UpdateData.new, hadd1, hadd2,
    AddOutOfRangeGUIDs]
  rfl

theorem reserve_without_ids (s : UpdateData) (seg : UpdatePacket) (n : Nat)
    (hs : s.m_outOfRangeGUIDs = []) (hn : seg.m_buffer.length = n) :
    BuildPacket.reserve s seg = 4 + n := by
  simp [BuildPacket.reserve, ByteBuffer.wpos, hs, hn]

/-- The two runs of the counterexample to the ceiling fall under the two
exceptions: the lone block of 32763 bytes was not appended by the fit branch
and its reserved size exceeds the ceiling; the two-block segment was last
appended to with 0 identifiers in the set, 14 fewer than at the end. -/
theorem lastFitCounts_counterexamples :
    lastFitCounts sampleEnv [Op.addBlock (blockOfSize 32763)] = [none, none] ∧
    sampleEnv.MAX_NETCLIENT_PACKET_SIZE
      < BuildPacket.reserve loneBlockState { m_buffer := blockOfSize 32763, m_blockCount := 1 } ∧
    lastFitCounts sampleEnv
      [Op.addBlock (blockOfSize 16000), Op.addBlock (blockOfSize 16637), Op.addGuids fullGuids]
      = [some 0] ∧
    0 + 13 < lateGuidState.m_outOfRangeGUIDs.length := by
  refine ⟨?_, ?_, ?_, by decide⟩
  · exact lastFitCounts_one_block_split sampleEnv _ (by rw [blockOfSize_length]; decide)
  · rw [reserve_without_ids loneBlockState _ 32763 rfl (blockOfSize_length 32763)]
    decide
  · exact lastFitCounts_two_blocks_then_guids sampleEnv _ _ _
      (by rw [blockOfSize_length]; decide)
      (by rw [blockOfSize_length, blockOfSize_length]; decide)

end UpdateDataModel
